import Mathlib

/-!
Verification of the IG_Migration data-migration scripts.

The repository contains two Python scripts:

* `final.py` — merges a training CSV and an agreement CSV into a flat list of
  records keyed by a normalised username.
* `gptstudies.py` — reads studies, assets and contracts CSVs, attaches the
  children to their studies, sorts the result and validates it.

The scripts are embedded shallowly: Python strings are Lean `String`s (a
packed `List Char`), Python dicts are association lists with insert-overwrite
semantics that keep the first-insertion position (matching CPython dict
ordering), CSV rows are association lists of header/value pairs (a
`csv.DictReader` row), and functions that can raise return `Except String`.
Python string methods are modelled character-wise over `String.data`:
`.strip()` removes the six ASCII whitespace characters (the Unicode cases do
not occur in this data set), `.lower()` is the ASCII case map
(`Char.toLower`), and `.replace("@", "_")` is a character map since both the
pattern and the replacement are single characters.
-/

deriving instance DecidableEq for Except

namespace IGMigration

/-! ## Python string primitives -/

/-- The six ASCII whitespace characters recognised by Python's `str.strip()`. -/
def isPySpace (c : Char) : Bool :=
  c == ' ' || c == '\t' || c == '\n' || c == '\x0b' || c == '\x0c' || c == '\r'

/-- `str.strip()` on the character list: drop whitespace from both ends. -/
def pyStripL (l : List Char) : List Char :=
  ((l.dropWhile isPySpace).reverse.dropWhile isPySpace).reverse

/-- Python `s.strip()`. -/
def pystrip (s : String) : String :=
  ⟨pyStripL s.data⟩

/-- Python `s.lower()` (ASCII case map, per character). -/
def pylower (s : String) : String :=
  ⟨s.data.map Char.toLower⟩

/-- The per-character effect of `s.replace("@", "_")`. -/
def repChar (c : Char) : Char :=
  if c = '@' then '_' else c

/-- Python `s.replace("@", "_")`: single-character pattern, so a character map. -/
def replaceAt (s : String) : String :=
  ⟨s.data.map repChar⟩

/-- Python `"@" in s`. -/
def containsAt (s : String) : Bool :=
  s.data.contains '@'

/-! ## `final.py`: `normalise_username` -/

/-- `final.py` line 16, `normalise_username`: trim and lowercase; an
`@`-containing identifier becomes an external UPN (replace `@` by `_` and
append `#EXT#@liveuclac.onmicrosoft.com`), anything else gets `@ucl.ac.uk`
appended. -/
def normalise_username (value : String) : String :=
  let value := pylower (pystrip value)
  if containsAt value then
    replaceAt value ++ "#EXT#@liveuclac.onmicrosoft.com"
  else
    value ++ "@ucl.ac.uk"

/-! ## Character-level helper lemmas -/

theorem toNat_ofNatAux (n : Nat) (h : n.isValidChar) : (Char.ofNatAux n h).toNat = n := rfl

theorem toLower_toNat_of_upper (c : Char) (h65 : 65 ≤ c.toNat) (h90 : c.toNat ≤ 90) :
    (Char.toLower c).toNat = c.toNat + 32 := by
  unfold Char.toLower
  rw [if_pos ⟨h65, h90⟩]
  have hv : (c.toNat + 32).isValidChar := Or.inl (by omega)
  show (Char.ofNat _).toNat = _
  unfold Char.ofNat
  rw [dif_pos hv]
  exact toNat_ofNatAux _ hv

theorem toLower_eq_self_of_not_upper (c : Char) (h : ¬(65 ≤ c.toNat ∧ c.toNat ≤ 90)) :
    Char.toLower c = c := by
  unfold Char.toLower
  exact if_neg h

theorem toNat_inj_char {a b : Char} (h : a.toNat = b.toNat) : a = b := by
  apply Char.eq_of_val_eq
  apply UInt32.eq_of_toBitVec_eq
  apply BitVec.eq_of_toNat_eq
  exact h

theorem toNat_le_of_isPySpace (c : Char) (h : isPySpace c = true) : c.toNat ≤ 32 := by
  simp only [isPySpace, Bool.or_eq_true, beq_iff_eq] at h
  rcases h with ((((h | h) | h) | h) | h) | h <;> subst h <;> decide

/-- The ASCII case map sends non-whitespace characters to non-whitespace
characters. -/
theorem isPySpace_toLower (c : Char) (h : isPySpace c = false) :
    isPySpace (Char.toLower c) = false := by
  by_cases hu : 65 ≤ c.toNat ∧ c.toNat ≤ 90
  · have ht := toLower_toNat_of_upper c hu.1 hu.2
    rw [Bool.eq_false_iff]
    intro hsp
    have := toNat_le_of_isPySpace _ hsp
    omega
  · rw [toLower_eq_self_of_not_upper c hu]
    exact h

/-- Replacing `@` by `_` sends non-whitespace characters to non-whitespace
characters. -/
theorem isPySpace_repChar (c : Char) (h : isPySpace c = false) :
    isPySpace (repChar c) = false := by
  unfold repChar
  by_cases hc : c = '@'
  · rw [if_pos hc]; decide
  · rw [if_neg hc]; exact h

theorem isPySpace_at : isPySpace '@' = false := by decide

/-! ## List-level lemmas about stripping -/

theorem head?_dropWhile (p : α → Bool) (l : List α) {c : α}
    (h : (l.dropWhile p).head? = some c) : p c = false := by
  have hm := List.head?_dropWhile_not p l
  rw [h] at hm
  exact hm

theorem getLast?_dropWhile (p : α → Bool) (l : List α) (h : l.dropWhile p ≠ []) :
    (l.dropWhile p).getLast? = l.getLast? := by
  obtain ⟨t, ht⟩ := List.dropWhile_suffix (l := l) p
  conv_rhs => rw [← ht]
  exact (List.getLast?_append_of_ne_nil t h).symm

theorem mem_dropWhile_isPySpace (l : List Char) (c : Char) (hw : isPySpace c = false)
    (h : c ∈ l) : c ∈ l.dropWhile isPySpace := by
  induction l with
  | nil => cases h
  | cons a t ih =>
    rw [List.dropWhile_cons]
    by_cases ha : isPySpace a = true
    · rw [if_pos ha]
      apply ih
      cases h with
      | head => rw [ha] at hw; cases hw
      | tail _ ht => exact ht
    · rw [if_neg ha]
      exact h

theorem mem_pyStripL (l : List Char) (c : Char) (hw : isPySpace c = false)
    (h : c ∈ l) : c ∈ pyStripL l := by
  unfold pyStripL
  rw [List.mem_reverse]
  apply mem_dropWhile_isPySpace _ _ hw
  rw [List.mem_reverse]
  exact mem_dropWhile_isPySpace _ _ hw h

/-- The first character of a stripped list is non-whitespace. -/
theorem pyStripL_head (l : List Char) {c : Char} (h : (pyStripL l).head? = some c) :
    isPySpace c = false := by
  unfold pyStripL at h
  rw [List.head?_reverse] at h
  have hne : (l.dropWhile isPySpace).reverse.dropWhile isPySpace ≠ [] := by
    intro hnil
    rw [hnil] at h
    cases h
  rw [getLast?_dropWhile _ _ hne, List.getLast?_reverse] at h
  exact head?_dropWhile _ _ h

/-- The last character of a stripped list is non-whitespace. -/
theorem pyStripL_getLast (l : List Char) {c : Char} (h : (pyStripL l).getLast? = some c) :
    isPySpace c = false := by
  unfold pyStripL at h
  rw [List.getLast?_reverse] at h
  exact head?_dropWhile _ _ h

theorem dropWhile_isPySpace_eq_self (l : List Char)
    (h : ∀ c, l.head? = some c → isPySpace c = false) : l.dropWhile isPySpace = l := by
  cases l with
  | nil => rfl
  | cons a t =>
    rw [List.dropWhile_cons, if_neg]
    rw [h a rfl]
    simp

/-- Stripping a list whose first and last characters are non-whitespace is the
identity. -/
theorem pyStripL_eq_self (l : List Char)
    (hh : ∀ c, l.head? = some c → isPySpace c = false)
    (hl : ∀ c, l.getLast? = some c → isPySpace c = false) : pyStripL l = l := by
  unfold pyStripL
  rw [dropWhile_isPySpace_eq_self l hh]
  rw [dropWhile_isPySpace_eq_self l.reverse]
  · exact List.reverse_reverse l
  · intro c hc
    apply hl
    rw [← List.head?_reverse]
    exact hc

/-- Stripping is idempotent. -/
theorem pyStripL_idem (l : List Char) : pyStripL (pyStripL l) = pyStripL l := by
  apply pyStripL_eq_self
  · intro c hc
    exact pyStripL_head l hc
  · intro c hc
    exact pyStripL_getLast l hc

/-! ## Facts about `normalise_username` -/

theorem data_append (a b : String) : (a ++ b).data = a.data ++ b.data :=
  String.data_append a b

/-- Every normalised username contains an `@` character (both suffixes do). -/
theorem at_mem_normalise (x : String) : '@' ∈ (normalise_username x).data := by
  unfold normalise_username
  by_cases h : containsAt (pylower (pystrip x)) = true
  · rw [if_pos h, data_append]
    apply List.mem_append_right
    decide
  · rw [if_neg h, data_append]
    apply List.mem_append_right
    decide

/-- The trim-and-lowercase preprocessing preserves the presence of `@`. -/
theorem containsAt_pylower_pystrip (s : String) (h : '@' ∈ s.data) :
    containsAt (pylower (pystrip s)) = true := by
  unfold containsAt pylower pystrip
  show List.contains _ _ = true
  rw [List.contains, List.elem_eq_mem, decide_eq_true_eq]
  apply List.mem_map.mpr
  refine ⟨'@', ?_, by decide⟩
  exact mem_pyStripL _ _ isPySpace_at h

theorem head?_append_cases (A B : List α) {c : α} (h : (A ++ B).head? = some c) :
    A.head? = some c ∨ (A = [] ∧ B.head? = some c) := by
  cases A with
  | nil => exact Or.inr ⟨rfl, h⟩
  | cons a t => exact Or.inl (by simpa using h)

/-- The first character of a normalised username is non-whitespace. -/
theorem normalise_head (x : String) :
    ∀ c, (normalise_username x).data.head? = some c → isPySpace c = false := by
  intro c hc
  unfold normalise_username at hc
  by_cases hb : containsAt (pylower (pystrip x)) = true
  · rw [if_pos hb, data_append] at hc
    rcases head?_append_cases _ _ hc with hA | ⟨_, hB⟩
    · unfold replaceAt pylower pystrip at hA
      rw [List.head?_map, List.head?_map] at hA
      cases hd : (pyStripL x.data).head? with
      | none => rw [hd] at hA; cases hA
      | some d =>
        rw [hd] at hA
        have hcd : c = repChar (Char.toLower d) := (Option.some_inj.mp hA).symm
        rw [hcd]
        exact isPySpace_repChar _ (isPySpace_toLower _ (pyStripL_head _ hd))
    · have : c = '#' := by
        have he : ("#EXT#@liveuclac.onmicrosoft.com" : String).data.head? = some '#' := by decide
        rw [he] at hB
        exact (Option.some_inj.mp hB).symm
      rw [this]; decide
  · rw [if_neg hb, data_append] at hc
    rcases head?_append_cases _ _ hc with hA | ⟨_, hB⟩
    · unfold pylower pystrip at hA
      rw [List.head?_map] at hA
      cases hd : (pyStripL x.data).head? with
      | none => rw [hd] at hA; cases hA
      | some d =>
        rw [hd] at hA
        have hcd : c = Char.toLower d := (Option.some_inj.mp hA).symm
        rw [hcd]
        exact isPySpace_toLower _ (pyStripL_head _ hd)
    · have : c = '@' := by
        have he : ("@ucl.ac.uk" : String).data.head? = some '@' := by decide
        rw [he] at hB
        exact (Option.some_inj.mp hB).symm
      rw [this]; decide

/-- The last character of a normalised username is non-whitespace (it is the
last character of one of the two literal suffixes). -/
theorem normalise_getLast (x : String) :
    ∀ c, (normalise_username x).data.getLast? = some c → isPySpace c = false := by
  unfold normalise_username
  intro c hc
  by_cases h : containsAt (pylower (pystrip x)) = true
  · rw [if_pos h, data_append] at hc
    rw [List.getLast?_append_of_ne_nil _ (by decide)] at hc
    have : c = 'm' := by
      have hm : ("#EXT#@liveuclac.onmicrosoft.com" : String).data.getLast? = some 'm' := by decide
      rw [hm] at hc
      exact (Option.some_inj.mp hc).symm
    rw [this]; decide
  · rw [if_neg h, data_append] at hc
    rw [List.getLast?_append_of_ne_nil _ (by decide)] at hc
    have : c = 'k' := by
      have hk : ("@ucl.ac.uk" : String).data.getLast? = some 'k' := by decide
      rw [hk] at hc
      exact (Option.some_inj.mp hc).symm
    rw [this]; decide

/-- Re-normalising any normalised username goes through the external branch
and appends a second 31-character external suffix. -/
theorem length_normalise_normalise (x : String) :
    (normalise_username (normalise_username x)).data.length =
      (normalise_username x).data.length + 31 := by
  have h1 : containsAt (pylower (pystrip (normalise_username x))) = true :=
    containsAt_pylower_pystrip _ (at_mem_normalise x)
  have hstrip : pyStripL (normalise_username x).data = (normalise_username x).data :=
    pyStripL_eq_self _ (normalise_head x) (normalise_getLast x)
  conv_lhs => rw [normalise_username]
  rw [if_pos h1, data_append, List.length_append]
  have h2 : (replaceAt (pylower (pystrip (normalise_username x)))).data.length =
      (normalise_username x).data.length := by
    unfold replaceAt pylower pystrip
    rw [List.length_map, List.length_map, hstrip]
  rw [h2]
  have h3 : ("#EXT#@liveuclac.onmicrosoft.com" : String).data.length = 31 := by decide
  rw [h3]

/-! ## Dates: `datetime.strptime` / `strftime` for the formats used -/

/-- A calendar date, the part of a Python `datetime` this pipeline uses. -/
structure Date where
  year : Nat
  month : Nat
  day : Nat
deriving DecidableEq

/-- Gregorian leap year, as implemented by Python's `datetime`. -/
def isLeap (y : Nat) : Bool :=
  y % 4 = 0 && (y % 100 != 0 || y % 400 = 0)

def daysInMonth (y m : Nat) : Nat :=
  if m = 2 then (if isLeap y then 29 else 28)
  else if m = 4 || m = 6 || m = 9 || m = 11 then 30
  else 31

def digitsToNat (l : List Char) : Nat :=
  l.foldl (fun n c => n * 10 + (c.toNat - 48)) 0

/-- CPython's `%d` directive: `3[01]|[12]\d|0[1-9]|[1-9]` — one or two digits
with value 1..31 (the space-padded alternative cannot occur here because the
input is stripped and the day is the first field). -/
def dayTok (l : List Char) : Option Nat :=
  if l.all Char.isDigit then
    let n := digitsToNat l
    if l.length = 2 && 1 ≤ n && n ≤ 31 then some n
    else if l.length = 1 && 1 ≤ n then some n
    else none
  else none

/-- CPython's `%m` directive: one or two digits with value 1..12. -/
def monthTok (l : List Char) : Option Nat :=
  if l.all Char.isDigit then
    let n := digitsToNat l
    if l.length = 2 && 1 ≤ n && n ≤ 12 then some n
    else if l.length = 1 && 1 ≤ n then some n
    else none
  else none

/-- CPython's `%Y` directive: exactly four digits. -/
def yearTok (l : List Char) : Option Nat :=
  if l.all Char.isDigit && l.length = 4 then some (digitsToNat l) else none

/-- Split a character list on a separator character (`str.split(sep)`). -/
def splitOnChar (sep : Char) : List Char → List (List Char)
  | [] => [[]]
  | c :: t =>
    let r := splitOnChar sep t
    if c = sep then [] :: r
    else
      match r with
      | h :: t2 => (c :: h) :: t2
      | [] => [[c]]

/-- `datetime.strptime(s, "%d/%m/%Y")`: three `/`-separated fields matching
the `%d`, `%m`, `%Y` directives, and the triple must be a real calendar date
with year ≥ 1 (`datetime.MINYEAR`); otherwise `ValueError`, modelled as
`none`. -/
def strptimeDMY (s : String) : Option Date :=
  match splitOnChar '/' s.data with
  | [ds, ms, ys] =>
    match dayTok ds, monthTok ms, yearTok ys with
    | some d, some m, some y =>
      if 1 ≤ y ∧ d ≤ daysInMonth y m then some ⟨y, m, d⟩ else none
    | _, _, _ => none
  | _ => none

/-- `datetime.strptime(s, "%Y-%m-%d")` (used by `validate_json_date`). -/
def strptimeYMD (s : String) : Option Date :=
  match splitOnChar '-' s.data with
  | [ys, ms, ds] =>
    match yearTok ys, monthTok ms, dayTok ds with
    | some y, some m, some d =>
      if 1 ≤ y ∧ d ≤ daysInMonth y m then some ⟨y, m, d⟩ else none
    | _, _, _ => none
  | _ => none

def pad2 (n : Nat) : String :=
  if n < 10 then "0" ++ toString n else toString n

def pad4 (n : Nat) : String :=
  if n < 10 then "000" ++ toString n
  else if n < 100 then "00" ++ toString n
  else if n < 1000 then "0" ++ toString n
  else toString n

/-- `dt.strftime("%Y-%m-%d")` (year zero-padded to four digits). -/
def fmtISO (d : Date) : String :=
  pad4 d.year ++ "-" ++ pad2 d.month ++ "-" ++ pad2 d.day

/-! ## `gptstudies.py` field coercers -/

/-- `gptstudies.py` line 43, `to_bool`: truthy token test on the trimmed,
lowercased text (`None` becomes the empty string). -/
def to_bool (s : Option String) : Bool :=
  let t := pylower (pystrip (s.getD ""))
  t == "true" || t == "1" || t == "yes" || t == "y"

/-- `gptstudies.py` line 47, `parse_date`: empty (after stripping) gives
`None`; otherwise `strptime "%d/%m/%Y"` re-rendered as an ISO string, with
`ValueError` mapped to `None`. -/
def parse_date (date_str : String) : Option String :=
  let ds := pystrip date_str
  if ds = "" then none
  else (strptimeDMY ds).map fmtISO

/-- `gptstudies.py` line 65, `validate_json_date`: strict ISO parse, `None`
on empty or invalid. -/
def validate_json_date (date_str : String) : Option Date :=
  let ds := pystrip date_str
  if ds = "" then none
  else strptimeYMD ds

/-! ## Python dicts and CSV rows -/

/-- A Python dict with string keys: an association list whose keys are
distinct; `d[k] = v` overwrites in place (keeping the first-insertion
position, as CPython does). -/
abbrev Dict (α : Type) : Type := List (String × α)

def dget (d : Dict α) (k : String) : Option α :=
  (d.find? (fun p => p.1 == k)).map (·.2)

def dgetD (d : Dict α) (k : String) (v : α) : α :=
  (dget d k).getD v

def dkeys (d : Dict α) : List String :=
  d.map (·.1)

/-- `d[k] = v`: overwrite in place if the key is present (CPython keeps the
first-insertion position), else append at the end. -/
def dinsert : Dict α → String → α → Dict α
  | [], k, v => [(k, v)]
  | p :: t, k, v => if p.1 == k then (k, v) :: t else p :: dinsert t k v

/-- `d.setdefault(k, []).append(v)`. -/
def dappend : Dict (List α) → String → α → Dict (List α)
  | [], k, v => [(k, [v])]
  | p :: t, k, v => if p.1 == k then (p.1, p.2 ++ [v]) :: t else p :: dappend t k v

/-- One `csv.DictReader` row: header name to cell text.  `Row.get k` is
Python's `row.get(k)` (`None` when the column is missing). -/
abbrev Row : Type := List (String × String)

def rowGet (r : Row) (k : String) : Option String :=
  (r.find? (fun p => p.1 == k)).map (·.2)

/-! ## Ordinal string comparison (Python `<=` on `str`) -/

/-- Lexicographic comparison of character lists by code point. -/
def lexLeL : List Char → List Char → Bool
  | [], _ => true
  | _ :: _, [] => false
  | a :: as, b :: bs =>
    if a.toNat < b.toNat then true
    else if b.toNat < a.toNat then false
    else lexLeL as bs

/-- Python's ordinal `<=` on strings (code-point lexicographic). -/
def strLeB (a b : String) : Bool :=
  lexLeL a.data b.data

theorem lexLeL_total (a b : List Char) : lexLeL a b || lexLeL b a := by
  induction a generalizing b with
  | nil => simp [lexLeL]
  | cons x xs ih =>
    cases b with
    | nil => simp [lexLeL]
    | cons y ys =>
      unfold lexLeL
      by_cases h1 : x.toNat < y.toNat
      · simp [h1]
      · by_cases h2 : y.toNat < x.toNat
        · simp [h1, h2]
        · simp only [if_neg h1, if_neg h2]
          exact ih ys

theorem lexLeL_trans (a b c : List Char) (h1 : lexLeL a b) (h2 : lexLeL b c) :
    lexLeL a c := by
  induction a generalizing b c with
  | nil => simp [lexLeL]
  | cons x xs ih =>
    cases b with
    | nil => simp [lexLeL] at h1
    | cons y ys =>
      cases c with
      | nil => simp [lexLeL] at h2
      | cons z zs =>
        unfold lexLeL at h1 h2 ⊢
        by_cases hxy : x.toNat < y.toNat
        · by_cases hyz : y.toNat < z.toNat
          · rw [if_pos (by omega)]
          · by_cases hzy : z.toNat < y.toNat
            · simp [hyz, hzy] at h2
            · rw [if_pos (by omega)]
        · by_cases hyx : y.toNat < x.toNat
          · simp [hxy, hyx] at h1
          · by_cases hyz : y.toNat < z.toNat
            · rw [if_pos (by omega)]
            · by_cases hzy : z.toNat < y.toNat
              · simp [hyz, hzy] at h2
              · rw [if_neg (by omega), if_neg (by omega)]
                simp only [if_neg hxy, if_neg hyx] at h1
                simp only [if_neg hyz, if_neg hzy] at h2
                exact ih ys zs h1 h2

theorem strLeB_total (a b : String) : strLeB a b || strLeB b a :=
  lexLeL_total a.data b.data

theorem strLeB_trans (a b c : String) (h1 : strLeB a b) (h2 : strLeB b c) :
    strLeB a c :=
  lexLeL_trans a.data b.data c.data h1 h2

/-! ## A stable sort

Python's `sorted` / `list.sort` is a stable sort.  Any two stable sorts with
the same total-preorder comparator produce the same list, so a stable
insertion sort is a faithful model of the sorting the scripts perform (and,
unlike well-founded merge sort, it reduces inside the kernel). -/

def pyInsert (le : α → α → Bool) (x : α) : List α → List α
  | [] => [x]
  | y :: t => if le x y then x :: y :: t else y :: pyInsert le x t

def pySort (le : α → α → Bool) : List α → List α
  | [] => []
  | x :: t => pyInsert le x (pySort le t)

theorem pyInsert_perm (le : α → α → Bool) (x : α) (l : List α) :
    List.Perm (pyInsert le x l) (x :: l) := by
  induction l with
  | nil => exact List.Perm.refl _
  | cons y t ih =>
    unfold pyInsert
    by_cases h : le x y = true
    · rw [if_pos h]
    · rw [if_neg h]
      exact (ih.cons y).trans (List.Perm.swap x y t)

theorem pySort_perm (le : α → α → Bool) (l : List α) :
    List.Perm (pySort le l) l := by
  induction l with
  | nil => exact List.Perm.refl _
  | cons x t ih =>
    exact (pyInsert_perm le x (pySort le t)).trans (ih.cons x)

theorem mem_pyInsert (le : α → α → Bool) (x a : α) (l : List α) :
    a ∈ pyInsert le x l ↔ a = x ∨ a ∈ l := by
  rw [(pyInsert_perm le x l).mem_iff]
  simp

theorem mem_pySort (le : α → α → Bool) (a : α) (l : List α) :
    a ∈ pySort le l ↔ a ∈ l :=
  (pySort_perm le l).mem_iff

theorem sorted_pyInsert (le : α → α → Bool)
    (total : ∀ a b, le a b || le b a)
    (trans : ∀ a b c, le a b → le b c → le a c)
    (x : α) (l : List α) (h : l.Pairwise (fun a b => le a b = true)) :
    (pyInsert le x l).Pairwise (fun a b => le a b = true) := by
  induction l with
  | nil => simp [pyInsert]
  | cons y t ih =>
    unfold pyInsert
    by_cases hxy : le x y = true
    · rw [if_pos hxy]
      apply List.Pairwise.cons
      · intro b hb
        cases hb with
        | head => exact hxy
        | tail _ hbt =>
          exact trans x y b hxy (List.rel_of_pairwise_cons h hbt)
      · exact h
    · rw [if_neg hxy]
      apply List.Pairwise.cons
      · intro b hb
        rw [mem_pyInsert] at hb
        cases hb with
        | inl hbx =>
          have := total x y
          rw [Bool.eq_false_iff.mpr hxy] at this
          rw [hbx]
          simpa using this
        | inr hbt => exact List.rel_of_pairwise_cons h hbt
      · exact ih h.tail

theorem sorted_pySort (le : α → α → Bool)
    (total : ∀ a b, le a b || le b a)
    (trans : ∀ a b c, le a b → le b c → le a c)
    (l : List α) : (pySort le l).Pairwise (fun a b => le a b = true) := by
  induction l with
  | nil => exact List.Pairwise.nil
  | cons x t ih => exact sorted_pyInsert le total trans x (pySort le t) ih

/-! ## `final.py` loaders and merge -/

/-- The flat merge record produced by `final.py`. -/
structure Record where
  username : String
  has_signed_agreement : Bool
  nhsd_training_completed_at : Option Date
deriving DecidableEq

/-- `final.py` line 44, `load_training`: per row, prefer the stripped
"Other email", fall back to the stripped "UserID", skip the row if both are
blank; parse "LastTrained" with `%d/%m/%Y`, swallowing parse failures. -/
def load_training_row (training : Dict (Option Date)) (row : Row) : Dict (Option Date) :=
  let other_email := pystrip ((rowGet row "Other email").getD "")
  let userid := pystrip ((rowGet row "UserID").getD "")
  if other_email == "" && userid == "" then
    training
  else
    let user :=
      if other_email != "" then normalise_username other_email
      else normalise_username userid
    let date_str := pystrip ((rowGet row "LastTrained").getD "")
    let training_date : Option Date :=
      if date_str == "" then none else strptimeDMY date_str
    dinsert training user training_date

def load_training (rows : List Row) : Dict (Option Date) :=
  rows.foldl load_training_row []

/-- The inline coercion of `final.py` line 88: `Approved.strip().lower() ==
"true"`.  Note this is narrower than `to_bool`. -/
def agreement_value (approved : String) : Bool :=
  pylower (pystrip approved) == "true"

/-- `final.py` line 76, `load_agreements`: skip rows whose raw "UserID" or
"Approved" is falsy (missing or empty — whitespace-only strings are truthy
and pass). -/
def load_agreements_row (agreements : Dict Bool) (row : Row) : Dict Bool :=
  if (rowGet row "UserID").getD "" == "" || (rowGet row "Approved").getD "" == "" then
    agreements
  else
    let user := normalise_username ((rowGet row "UserID").getD "")
    let has_signed := agreement_value ((rowGet row "Approved").getD "")
    dinsert agreements user has_signed

def load_agreements (rows : List Row) : Dict Bool :=
  rows.foldl load_agreements_row []

/-- `final.py` line 95, `merge_records` (parametrised by the two loaded
dicts): iterate the sorted union of the key sets, defaulting the agreement
facet to `False` and the training date to `None`. -/
def merge_records (training : Dict (Option Date)) (agreements : Dict Bool) :
    List Record :=
  let all_users := pySort strLeB ((dkeys training ++ dkeys agreements).dedup)
  all_users.map (fun user =>
    { username := user
      has_signed_agreement := dgetD agreements user false
      nhsd_training_completed_at := (dget training user).getD none })

/-- The composition actually run by `final.py`'s `merge_records`. -/
def pipelineFlat (trainingRows agreementRows : List Row) : List Record :=
  merge_records (load_training trainingRows) (load_agreements agreementRows)

/-! ## `gptstudies.py`: data model -/

/-- `gptstudies.py` line 34: strict date validation is enabled. -/
def VALIDATE_DATES : Bool := true

/-- The inline idiom `((row.get(k) or "").strip() or None)`. -/
def strOrNone (s : Option String) : Option String :=
  let v := pystrip (s.getD "")
  if v = "" then none else some v

/-- Python `repr` of an optional string as used in the f-string `{raw!r}`:
`None` prints as `None`, a string is quoted (escaping is not modelled — the
messages below are only compared for the claims' properties, never parsed). -/
def pyReprOpt (s : Option String) : String :=
  match s with
  | none => "None"
  | some v => "'" ++ v ++ "'"

/-- Characters accepted inside a Python `int()` literal after the first
digit: digits with single underscores strictly between digits (PEP 515).
ASCII digits only; Unicode digits do not occur in this data. -/
def intDigits : List Char → Bool
  | [] => true
  | c :: t =>
    if c.isDigit then intDigits t
    else if c = '_' then
      match t with
      | [] => false
      | d :: t2 => d.isDigit && intDigits t2
    else false

def parseDigs (l : List Char) : Option Nat :=
  match l with
  | [] => none
  | c :: _ =>
    if c.isDigit && intDigits l then
      some (digitsToNat (l.filter (fun d => d != '_')))
    else none

/-- Python `int(s)`: strip whitespace, optional sign, digit run; `ValueError`
on anything else is modelled as `none`. -/
def pyInt (s : String) : Option Int :=
  match pyStripL s.data with
  | '+' :: rest => (parseDigs rest).map (fun n => (n : Int))
  | '-' :: rest => (parseDigs rest).map (fun n => -(n : Int))
  | rest => (parseDigs rest).map (fun n => (n : Int))

structure Contract where
  creator_userID : String
  caseref : String
  contract_sp_id : String
  filename : String
  status : String
  start_date : Option String
  expiry_date : Option String
  organisation_signatory : Option String
  third_party_name : Option String
  creator_username : Option String
deriving DecidableEq

structure Asset where
  creator_userID : String
  caseref : String
  asset_sp_id : String
  title : String
  description : String
  classification_impact : String
  tier : Int
  protection : String
  legal_basis : String
  format : String
  expires_at : Option String
  requires_contract : Bool
  has_dspt : Bool
  stored_outside_uk_eea : Bool
  status : String
  locations : Option String
deriving DecidableEq

structure Study where
  caseref : String
  owner_user_id : String
  admin_user_id : String
  title : String
  approval_status : String
  description : Option String
  data_controller_organisation : String
  involves_ucl_sponsorship : Bool
  involves_cag : Bool
  cag_reference : Option String
  involves_ethics_approval : Bool
  involves_hra_approval : Bool
  iras_id : Option String
  is_nhs_associated : Bool
  involves_nhs_england : Bool
  nhs_england_reference : Option String
  involves_mnca : Bool
  requires_dspt : Bool
  requires_dbs : Bool
  is_data_protection_office_registered : Option Bool
  data_protection_number : Option String
  involves_third_party : Bool
  involves_external_users : Bool
  involves_participant_consent : Bool
  involves_indirect_data_collection : Bool
  involves_data_processing_outside_uk_eea : Bool
  dsh_active : Bool
  last_signoff : Option String
  feedback : Option String
  contracts : List Contract
  assets : List Asset
deriving DecidableEq

/-- The study dict built at `gptstudies.py` lines 109–143 (contracts and
assets start empty and are attached later). -/
def mkStudy (row : Row) (case_ref : String) : Study :=
  { caseref := case_ref
    owner_user_id := pystrip ((rowGet row "OwnerUserID").getD "")
    admin_user_id := pystrip ((rowGet row "AdminUserID").getD "")
    title := pystrip ((rowGet row "Title").getD "")
    approval_status := pystrip ((rowGet row "ApprovalStatus").getD "")
    description := strOrNone (rowGet row "Description")
    data_controller_organisation := pystrip ((rowGet row "DataControllerOrganisation").getD "")
    involves_ucl_sponsorship := to_bool (rowGet row "InvolvesUclSponsorship")
    involves_cag := to_bool (rowGet row "InvolvesCag")
    cag_reference := strOrNone (rowGet row "CagReference")
    involves_ethics_approval := to_bool (rowGet row "InvolvesEthicsApproval")
    involves_hra_approval := to_bool (rowGet row "InvolvesHraApproval")
    iras_id := strOrNone (rowGet row "IrasId")
    is_nhs_associated := to_bool (rowGet row "IsNhsAssociated")
    involves_nhs_england := to_bool (rowGet row "InvolvesNhsEngland")
    nhs_england_reference := strOrNone (rowGet row "NhsEnglandReference")
    involves_mnca := to_bool (rowGet row "InvolvesMnca")
    requires_dspt := to_bool (rowGet row "RequiresDspt")
    requires_dbs := to_bool (rowGet row "RequiresDbs")
    is_data_protection_office_registered :=
      if pystrip ((rowGet row "DataProtectionNumber").getD "") ≠ "" then some true else none
    data_protection_number := strOrNone (rowGet row "DataProtectionNumber")
    involves_third_party := to_bool (rowGet row "InvolvesThirdParty")
    involves_external_users := to_bool (rowGet row "InvolvesExternalUsers")
    involves_participant_consent := to_bool (rowGet row "InvolvesParticipantConsent")
    involves_indirect_data_collection := to_bool (rowGet row "InvolvesIndirectDataCollection")
    involves_data_processing_outside_uk_eea :=
      to_bool (rowGet row "InvolvesDataProcessingOutsideUkEea")
    dsh_active := to_bool (rowGet row "DSHActive")
    last_signoff := parse_date ((rowGet row "IAOSignoff").getD "")
    feedback := strOrNone (rowGet row "Feedback")
    contracts := []
    assets := [] }

/-- `gptstudies.py` line 83, `read_studies`: abort with `ValueError` on a
blank `CaseRef` (`enumerate(reader, start=2)` — the header is file line 1);
otherwise `studies[case_ref] = {...}`, which overwrites any earlier row with
the same `CaseRef` (the duplicate check at lines 103–104 is commented out). -/
def read_studies_go (i : Nat) (rows : List Row) (studies : Dict Study) :
    Except String (Dict Study) :=
  match rows with
  | [] => .ok studies
  | row :: rest =>
    let case_ref := pystrip ((rowGet row "CaseRef").getD "")
    if case_ref = "" then
      .error ("Study row missing CaseRef (line " ++ toString i ++ ")")
    else
      read_studies_go (i + 1) rest (dinsert studies case_ref (mkStudy row case_ref))

def read_studies (rows : List Row) : Except String (Dict Study) :=
  read_studies_go 2 rows []

/-- The asset dict built at `gptstudies.py` lines 172–190. -/
def mkAsset (row : Row) (case_ref : String) (expires_at : Option String) (tier : Int) :
    Asset :=
  { creator_userID := pystrip ((rowGet row "Created By").getD "")
    caseref := case_ref
    asset_sp_id := pystrip ((rowGet row "ID").getD "")
    title := pystrip ((rowGet row "Description").getD "")
    description := pystrip ((rowGet row "Description").getD "")
    classification_impact := pystrip ((rowGet row "Classification").getD "")
    tier := tier
    protection := pystrip ((rowGet row "Impact Mitigation").getD "")
    legal_basis := pystrip ((rowGet row "Legal Basis").getD "")
    format := pystrip ((rowGet row "Format").getD "")
    expires_at := expires_at
    requires_contract := to_bool (rowGet row "RequiresContract")
    has_dspt := to_bool (rowGet row "DSP Toolkit")
    stored_outside_uk_eea := to_bool (rowGet row "Outside EEA")
    status := pystrip ((rowGet row "STATUS").getD "")
    locations := rowGet row "Current Location" }

/-- `gptstudies.py` line 147, `read_assets_by_case`: blank `CaseRef` aborts;
under `VALIDATE_DATES` a non-blank unparseable "Next Scheduled Review"
aborts; `int(row.get("Tier") or "0")` raises `ValueError` on non-numeric
text; otherwise the asset is appended to its `CaseRef` group. -/
def read_assets_go (i : Nat) (rows : List Row) (grouped : Dict (List Asset)) :
    Except String (Dict (List Asset)) :=
  match rows with
  | [] => .ok grouped
  | row :: rest =>
    let case_ref := pystrip ((rowGet row "CaseRef").getD "")
    if case_ref = "" then
      .error ("Asset row missing CaseRef (line " ++ toString i ++ ")")
    else
      let expires_raw := rowGet row "Next Scheduled Review"
      let expires_at := parse_date (expires_raw.getD "")
      if VALIDATE_DATES && pystrip (expires_raw.getD "") != "" && expires_at == none then
        .error ("Invalid date format (expected DD/MM/YYYY) in assets.csv line "
          ++ toString i ++ ": " ++ pyReprOpt expires_raw)
      else
        let tier_str := if (rowGet row "Tier").getD "" = "" then "0" else (rowGet row "Tier").getD ""
        match pyInt tier_str with
        | none => .error ("invalid literal for int() with base 10: " ++ pyReprOpt (some tier_str))
        | some tier =>
          read_assets_go (i + 1) rest (dappend grouped case_ref (mkAsset row case_ref expires_at tier))

def read_assets_by_case (rows : List Row) : Except String (Dict (List Asset)) :=
  read_assets_go 2 rows []

/-- The contract dict built at `gptstudies.py` lines 227–238. -/
def mkContract (row : Row) (case_ref : String) (start_date end_date : Option String) :
    Contract :=
  { creator_userID := pystrip ((rowGet row "Created By").getD "")
    caseref := case_ref
    contract_sp_id := pystrip ((rowGet row "ID").getD "")
    filename := pystrip ((rowGet row "Agreement Reference").getD "")
    status := pystrip ((rowGet row "STATUS").getD "")
    start_date := start_date
    expiry_date := end_date
    organisation_signatory := strOrNone (rowGet row "UCL signatory")
    third_party_name := strOrNone (rowGet row "Third party")
    creator_username := strOrNone (rowGet row "CreatorUsername") }

/-- `gptstudies.py` line 195, `read_study_contracts`: blank `CaseRef`
aborts; under `VALIDATE_DATES` a non-blank unparseable "Agreement date" or
"Contract expiry or review date" aborts; otherwise the contract is appended
to its `CaseRef` group. -/
def read_contracts_go (i : Nat) (rows : List Row) (grouped : Dict (List Contract)) :
    Except String (Dict (List Contract)) :=
  match rows with
  | [] => .ok grouped
  | row :: rest =>
    let case_ref := pystrip ((rowGet row "CaseRef").getD "")
    if case_ref = "" then
      .error ("Contract row missing CaseRef (line " ++ toString i ++ ")")
    else
      let start_raw := rowGet row "Agreement date"
      let start_date := parse_date (start_raw.getD "")
      if VALIDATE_DATES && pystrip (start_raw.getD "") != "" && start_date == none then
        .error ("Invalid date format (expected DD/MM/YYYY) in contracts.csv line "
          ++ toString i ++ ": " ++ pyReprOpt start_raw)
      else
        let end_raw := rowGet row "Contract expiry or review date"
        let end_date := parse_date (end_raw.getD "")
        if VALIDATE_DATES && pystrip (end_raw.getD "") != "" && end_date == none then
          .error ("Invalid date format (expected DD/MM/YYYY) in contracts.csv line "
            ++ toString i ++ ": " ++ pyReprOpt end_raw)
        else
          read_contracts_go (i + 1) rest
            (dappend grouped case_ref (mkContract row case_ref start_date end_date))

def read_study_contracts (rows : List Row) : Except String (Dict (List Contract)) :=
  read_contracts_go 2 rows []

/-! ## `gptstudies.py`: `build_import_json` -/

/-- The Python sort key `(a.get("asset_sp_id",""), a.get("title",""))`:
lexicographic pair comparison with ordinal string order on each component. -/
def keyPairLe (k1a k2a k1b k2b : String) : Bool :=
  if k1a = k1b then strLeB k2a k2b else strLeB k1a k1b

def assetLe (a b : Asset) : Bool :=
  keyPairLe a.asset_sp_id a.title b.asset_sp_id b.title

def studyLe (a b : Study) : Bool :=
  strLeB a.caseref b.caseref

/-- `gptstudies.py` line 243, `build_import_json`: attach each study's
contracts group (unsorted!) and its assets group sorted by
`(asset_sp_id, title)`, then sort the studies by `caseref`.  (The loop that
reassigns `a["expires_at"]` to itself at lines 256–259 is a no-op and is
omitted.) -/
def build_import_json (studies : Dict Study) (assets_by_case : Dict (List Asset))
    (study_contracts_by_case : Dict (List Contract)) : List Study :=
  let output := studies.map (fun p =>
    { p.2 with
        contracts := dgetD study_contracts_by_case p.1 []
        assets := pySort assetLe (dgetD assets_by_case p.1 []) })
  pySort studyLe output

/-! ## `gptstudies.py`: `validate` -/

/-- The mutable state of `validate`: the accumulated issue list and the
three `seen` sets (modelled as duplicate-free lists). -/
structure VSt where
  errors : List String
  seen_case : List String
  seen_asset : List String
  seen_contract : List String
deriving DecidableEq

/-- Python `set.add`. -/
def setAdd (s : List String) (x : String) : List String :=
  if x ∈ s then s else x :: s

/-- One iteration of the contract loop, `gptstudies.py` lines 288–302. -/
def validate_contract (validate_dates : Bool) (cr : String) (st : VSt) (c : Contract) :
    VSt :=
  let cref := c.contract_sp_id
  let st :=
    if cref = "" then
      { st with errors := st.errors ++ ["Study " ++ cr ++ ": contract missing contract_sp_id"] }
    else if cref ∈ st.seen_contract then
      { st with errors := st.errors ++ ["Duplicate contract_sp_id: " ++ cref] }
    else
      { st with seen_contract := setAdd st.seen_contract cref }
  if validate_dates then
    let sd := c.start_date.getD ""
    let ed := c.expiry_date.getD ""
    let st :=
      if sd != "" && validate_json_date sd == none then
        { st with errors := st.errors ++
            ["Study " ++ cr ++ ": contract " ++ cref ++ " invalid start_date: " ++ sd] }
      else st
    if ed != "" && validate_json_date ed == none then
      { st with errors := st.errors ++
          ["Study " ++ cr ++ ": contract " ++ cref ++ " invalid expiry_date: " ++ ed] }
    else st
  else st

/-- One iteration of the asset loop, `gptstudies.py` lines 305–315:
blank `asset_sp_id` values are exempt from the uniqueness check. -/
def validate_asset (validate_dates : Bool) (cr : String) (st : VSt) (a : Asset) : VSt :=
  let aref := a.asset_sp_id
  let st :=
    if aref != "" then
      if aref ∈ st.seen_asset then
        { st with errors := st.errors ++ ["Duplicate asset_sp_id: " ++ aref] }
      else
        { st with seen_asset := setAdd st.seen_asset aref }
    else st
  if validate_dates then
    let ex := a.expires_at.getD ""
    if ex != "" && validate_json_date ex == none then
      { st with errors := st.errors ++
          ["Study " ++ cr ++ ": asset " ++ aref ++ " invalid expires_at: " ++ ex] }
    else st
  else st

/-- One iteration of the study loop, `gptstudies.py` lines 278–315. -/
def validate_study (validate_dates : Bool) (st : VSt) (s : Study) : VSt :=
  let cr := s.caseref
  let st :=
    if cr = "" then
      { st with errors := st.errors ++ ["Study missing CaseRef"] }
    else if cr ∈ st.seen_case then
      { st with errors := st.errors ++ ["Duplicate CaseRef in merged data: " ++ cr] }
    else
      { st with seen_case := setAdd st.seen_case cr }
  let st := s.contracts.foldl (validate_contract validate_dates cr) st
  s.assets.foldl (validate_asset validate_dates cr) st

/-- `gptstudies.py` line 272, `validate`: walk the merged structure, never
raising, and return the accumulated issue list. -/
def validate (import_data : List Study) (validate_dates : Bool) : List String :=
  (import_data.foldl (validate_study validate_dates) ⟨[], [], [], []⟩).errors

/-- All contracts of the merged output in traversal order. -/
def allContracts (data : List Study) : List Contract :=
  (data.map Study.contracts).flatten

/-- All assets of the merged output in traversal order. -/
def allAssets (data : List Study) : List Asset :=
  (data.map Study.assets).flatten

/-! ## Dict lemmas -/

theorem dget_eq_none (d : Dict α) (k : String) (h : k ∉ dkeys d) : dget d k = none := by
  unfold dget
  rw [List.find?_eq_none.mpr]
  · rfl
  · intro p hp hpk
    apply h
    rw [beq_iff_eq] at hpk
    rw [← hpk]
    exact List.mem_map.mpr ⟨p, hp, rfl⟩

theorem mem_dkeys_dinsert (d : Dict α) (k : String) (v : α) (u : String)
    (h : u ∈ dkeys (dinsert d k v)) : u ∈ dkeys d ∨ u = k := by
  induction d with
  | nil =>
    right
    simpa [dinsert, dkeys] using h
  | cons p t ih =>
    rw [dinsert] at h
    by_cases hpk : (p.1 == k) = true
    · rw [if_pos hpk] at h
      unfold dkeys at h
      rw [List.map_cons, List.mem_cons] at h
      cases h with
      | inl h => exact Or.inr h
      | inr h => exact Or.inl (List.mem_cons_of_mem _ h)
    · rw [if_neg hpk] at h
      unfold dkeys at h
      rw [List.map_cons, List.mem_cons] at h
      cases h with
      | inl h =>
        left
        rw [dkeys, List.map_cons, h]
        exact List.mem_cons_self _ _
      | inr h =>
        cases ih h with
        | inl h2 => exact Or.inl (List.mem_cons_of_mem _ h2)
        | inr h2 => exact Or.inr h2

/-! ## C1: idempotence of the identity normaliser -/

/-- C1 counterexample: on the concrete raw identifier `""` (the claim
quantifies over every raw identifier string) the normaliser is not
idempotent: `normalise_username ""` is `"@ucl.ac.uk"` but renormalising it
yields `"_ucl.ac.uk#EXT#@liveuclac.onmicrosoft.com"`. -/
theorem c1_counterexample :
    normalise_username (normalise_username "") ≠ normalise_username "" := by decide

/-- C1 amended: the identity normaliser is never idempotent.  Every
normalised username contains an `@` (both suffixes do), so feeding it back
through `normalise_username` always takes the external-email branch and
appends a second 31-character external suffix, changing the string. -/
theorem c1_normalise_username_never_idempotent (x : String) :
    normalise_username (normalise_username x) ≠ normalise_username x := by
  intro heq
  have h := length_normalise_normalise x
  rw [heq] at h
  omega

/-! ## C3: totality of the flat join -/

/-- C3: `merge_records` is a total outer join.  The output usernames are
exactly the union of the two input key sets, each exactly once (the username
list is duplicate-free), and each record takes its facets by lookup with the
documented defaults: a missing agreement entry defaults to `false`, a
missing training entry to `none`. -/
theorem c3_merge_records_total_join (t : Dict (Option Date)) (a : Dict Bool) :
    (∀ u, u ∈ (merge_records t a).map Record.username ↔ (u ∈ dkeys t ∨ u ∈ dkeys a))
    ∧ ((merge_records t a).map Record.username).Nodup
    ∧ (∀ r ∈ merge_records t a,
        r.has_signed_agreement = dgetD a r.username false
        ∧ r.nhsd_training_completed_at = (dget t r.username).getD none
        ∧ (r.username ∉ dkeys a → r.has_signed_agreement = false)
        ∧ (r.username ∉ dkeys t → r.nhsd_training_completed_at = none)) := by
  have hmap : (merge_records t a).map Record.username =
      pySort strLeB ((dkeys t ++ dkeys a).dedup) := by
    unfold merge_records
    rw [List.map_map]
    exact List.map_id' _
  refine ⟨?_, ?_, ?_⟩
  · intro u
    rw [hmap, mem_pySort, List.mem_dedup, List.mem_append]
  · rw [hmap]
    exact ((pySort_perm _ _).nodup_iff).mpr (List.nodup_dedup _)
  · intro r hr
    unfold merge_records at hr
    rw [List.mem_map] at hr
    obtain ⟨u, _, rfl⟩ := hr
    refine ⟨rfl, rfl, ?_, ?_⟩
    · intro hu
      show dgetD a u false = false
      unfold dgetD
      rw [dget_eq_none a u hu]
      rfl
    · intro hu
      show (dget t u).getD none = none
      rw [dget_eq_none t u hu]
      rfl

/-- C3 witness: a concrete instantiation.  With one training-only user, the
record appears in the merge and its agreement facet defaults to `false`. -/
theorem c3_witness :
    (⟨"u@ucl.ac.uk", false, some ⟨2024, 3, 5⟩⟩ : Record) ∈
        merge_records [("u@ucl.ac.uk", some ⟨2024, 3, 5⟩)] [("v@ucl.ac.uk", true)]
    ∧ ("u@ucl.ac.uk" ∉ dkeys ([("v@ucl.ac.uk", true)] : Dict Bool) →
        (⟨"u@ucl.ac.uk", false, some ⟨2024, 3, 5⟩⟩ : Record).has_signed_agreement = false) :=
  ⟨by decide, fun h =>
    ((c3_merge_records_total_join [("u@ucl.ac.uk", some ⟨2024, 3, 5⟩)]
      [("v@ucl.ac.uk", true)]).2.2 _ (by decide)).2.2.1 h⟩

/-! ## C8: boolean facet coercion -/

/-- C8 counterexample: the claim says every boolean facet coercion uses the
truthy token set, including the agreement facet, so it requires the
agreement coercion of `"1"` to be `true`; but `load_agreements` compares
against the single token `"true"`, yielding `false` for `"1"` (while
`to_bool` yields `true`). -/
theorem c8_counterexample :
    to_bool (some "1") = true ∧
    load_agreements [[("UserID", "u"), ("Approved", "1")]] =
      [("u@ucl.ac.uk", false)] := by decide

/-- C8 amended: `to_bool` (used for every study and asset boolean field)
returns `true` iff the trimmed lowercased text is in `{"true","1","yes","y"}`;
the agreement facet in `final.py` instead compares the trimmed lowercased
text against the single token `"true"`. -/
theorem c8_bool_coercions (s : Option String) (approved : String) :
    (to_bool s = true ↔
      pylower (pystrip (s.getD "")) ∈ (["true", "1", "yes", "y"] : List String))
    ∧ (agreement_value approved = true ↔ pylower (pystrip approved) = "true") := by
  constructor
  · unfold to_bool
    simp only [Bool.or_eq_true, beq_iff_eq, List.mem_cons, List.mem_singleton]
    tauto
  · unfold agreement_value
    rw [beq_iff_eq]

/-! ## C9: blank-identifier filtering ahead of the normaliser -/

/-- If `w` is already stripped and non-empty then its normalised form is not
the bare local-domain suffix (the image of a blank identifier). -/
theorem normalise_stripped_ne_bare (w : String) (hw : pystrip w = w) (hne : w ≠ "") :
    normalise_username w ≠ "@ucl.ac.uk" := by
  intro heq
  have hwdata : pyStripL w.data = w.data := congrArg String.data hw
  have hpos : 1 ≤ w.data.length := by
    rcases hd : w.data with _ | ⟨c, t⟩
    · exfalso
      apply hne
      cases w with
      | mk d =>
        simp only at hd
        rw [hd]
    · simp
  have hlen := congrArg (fun s : String => s.data.length) heq
  simp only at hlen
  have hbare : ("@ucl.ac.uk" : String).data.length = 10 := by decide
  unfold normalise_username at hlen
  by_cases hb : containsAt (pylower (pystrip w)) = true
  · rw [if_pos hb, data_append, List.length_append] at hlen
    have h2 : (replaceAt (pylower (pystrip w))).data.length = w.data.length := by
      unfold replaceAt pylower pystrip
      rw [List.length_map, List.length_map, hwdata]
    have h3 : ("#EXT#@liveuclac.onmicrosoft.com" : String).data.length = 31 := by decide
    rw [h2, h3, hbare] at hlen
    omega
  · rw [if_neg hb, data_append, List.length_append] at hlen
    have h2 : (pylower (pystrip w)).data.length = w.data.length := by
      unfold pylower pystrip
      rw [List.length_map, hwdata]
    rw [h2, hbare] at hlen
    omega

theorem pystrip_idem (s : String) : pystrip (pystrip s) = pystrip s :=
  congrArg String.mk (pyStripL_idem s.data)

/-- Every key produced by folding `load_training_row` is either an initial
key or the normalisation of a stripped, non-empty identifier. -/
theorem keys_load_training_aux (rows : List Row) :
    ∀ (acc : Dict (Option Date)) (u : String),
      u ∈ dkeys (rows.foldl load_training_row acc) →
      u ∈ dkeys acc ∨
        ∃ w : String, pystrip w = w ∧ w ≠ "" ∧ u = normalise_username w := by
  induction rows with
  | nil =>
    intro acc u h
    exact Or.inl h
  | cons r t ih =>
    intro acc u h
    rw [List.foldl_cons] at h
    rcases ih (load_training_row acc r) u h with h1 | h1
    · unfold load_training_row at h1
      by_cases hg : (pystrip ((rowGet r "Other email").getD "") == ""
          && pystrip ((rowGet r "UserID").getD "") == "") = true
      · rw [if_pos hg] at h1
        exact Or.inl h1
      · rw [if_neg hg] at h1
        rcases mem_dkeys_dinsert _ _ _ _ h1 with h2 | h2
        · exact Or.inl h2
        · right
          by_cases he : (pystrip ((rowGet r "Other email").getD "") != "") = true
          · refine ⟨pystrip ((rowGet r "Other email").getD ""), pystrip_idem _, ?_, ?_⟩
            · simpa using he
            · rw [h2, if_pos he]
          · have hoe : pystrip ((rowGet r "Other email").getD "") = "" := by
              simpa using he
            refine ⟨pystrip ((rowGet r "UserID").getD ""), pystrip_idem _, ?_, ?_⟩
            · intro hc
              apply hg
              rw [Bool.and_eq_true, beq_iff_eq, beq_iff_eq]
              exact ⟨hoe, hc⟩
            · rw [h2, if_neg he]
    · exact Or.inr h1

/-- Every key produced by folding `load_agreements_row` is either an initial
key or the normalisation of the raw (unstripped) non-empty `UserID` of one
of the rows. -/
theorem keys_load_agreements_aux (rows : List Row) :
    ∀ (acc : Dict Bool) (u : String),
      u ∈ dkeys (rows.foldl load_agreements_row acc) →
      u ∈ dkeys acc ∨
        ∃ row ∈ rows, (rowGet row "UserID").getD "" ≠ "" ∧
          u = normalise_username ((rowGet row "UserID").getD "") := by
  induction rows with
  | nil =>
    intro acc u h
    exact Or.inl h
  | cons r t ih =>
    intro acc u h
    rw [List.foldl_cons] at h
    rcases ih (load_agreements_row acc r) u h with h1 | h1
    · unfold load_agreements_row at h1
      by_cases hg : ((rowGet r "UserID").getD "" == ""
          || (rowGet r "Approved").getD "" == "") = true
      · rw [if_pos hg] at h1
        exact Or.inl h1
      · rw [if_neg hg] at h1
        rcases mem_dkeys_dinsert _ _ _ _ h1 with h2 | h2
        · exact Or.inl h2
        · right
          refine ⟨r, List.mem_cons_self r t, ?_, h2⟩
          simp only [Bool.or_eq_true, beq_iff_eq] at hg
          intro hc
          exact hg (Or.inl hc)
    · right
      obtain ⟨row, hrow, hrest⟩ := h1
      exact ⟨row, List.mem_cons_of_mem r hrow, hrest⟩

/-- C9 counterexample: an agreements row whose `UserID` is whitespace-only
(blank in the claim's sense) passes `load_agreements`' falsiness filter, the
normaliser is applied to it, and the bare local-domain identity
`"@ucl.ac.uk"` appears in the merged output — contradicting the claim. -/
theorem c9_counterexample :
    pystrip " " = "" ∧
    merge_records (load_training []) (load_agreements [[("UserID", " "), ("Approved", "x")]]) =
      [⟨"@ucl.ac.uk", false, none⟩] := by decide

/-- C9 amended: the training extractor strips identifiers before testing, so
no blank identifier reaches the normaliser there and no training key is the
bare local-domain suffix; the agreements extractor only filters falsy
(missing or empty) `UserID` values and normalises the raw string, so a
whitespace-only `UserID` does reach the normaliser. -/
theorem c9_blank_filtering (rows rows2 : List Row) :
    (∀ u ∈ dkeys (load_training rows), u ≠ "@ucl.ac.uk")
    ∧ (∀ u ∈ dkeys (load_agreements rows2),
        ∃ row ∈ rows2, (rowGet row "UserID").getD "" ≠ "" ∧
          u = normalise_username ((rowGet row "UserID").getD "")) := by
  constructor
  · intro u hu
    rcases keys_load_training_aux rows [] u hu with h | ⟨w, hw, hne, rfl⟩
    · cases h
    · exact normalise_stripped_ne_bare w hw hne
  · intro u hu
    rcases keys_load_agreements_aux rows2 [] u hu with h | h
    · cases h
    · exact h

/-- C9 witness: a concrete training row with identifier `"bob"`; its merged
key is not the bare local-domain suffix. -/
theorem c9_witness :
    ("bob@ucl.ac.uk" ∈ dkeys (load_training [[("UserID", "bob")]]))
    ∧ "bob@ucl.ac.uk" ≠ "@ucl.ac.uk" :=
  ⟨by decide, (c9_blank_filtering [[("UserID", "bob")]] []).1 _ (by decide)⟩

/-! ## C4: blank mandatory keys abort the extractors -/

/-- A row's stripped `CaseRef` is blank: the mandatory-key failure tested by
all three extractors (missing column, empty, or whitespace-only). -/
def blankCase (r : Row) : Prop :=
  pystrip ((rowGet r "CaseRef").getD "") = ""

instance (r : Row) : Decidable (blankCase r) :=
  inferInstanceAs (Decidable (pystrip ((rowGet r "CaseRef").getD "") = ""))

theorem read_studies_go_append (pre rest : List Row) (i : Nat) (acc m : Dict Study)
    (h : read_studies_go i pre acc = .ok m) :
    read_studies_go i (pre ++ rest) acc = read_studies_go (i + pre.length) rest m := by
  induction pre generalizing i acc with
  | nil =>
    simp only [read_studies_go] at h
    cases h
    simp
  | cons r t ih =>
    rw [List.cons_append]
    simp only [read_studies_go] at h ⊢
    by_cases hc : pystrip ((rowGet r "CaseRef").getD "") = ""
    · rw [if_pos hc] at h
      cases h
    · rw [if_neg hc] at h ⊢
      rw [ih _ _ h]
      congr 1
      simp only [List.length_cons]
      omega

theorem read_assets_go_append (pre rest : List Row) (i : Nat) (acc m : Dict (List Asset))
    (h : read_assets_go i pre acc = .ok m) :
    read_assets_go i (pre ++ rest) acc = read_assets_go (i + pre.length) rest m := by
  induction pre generalizing i acc with
  | nil =>
    simp only [read_assets_go] at h
    cases h
    simp
  | cons r t ih =>
    rw [List.cons_append]
    simp only [read_assets_go] at h ⊢
    by_cases hc : pystrip ((rowGet r "CaseRef").getD "") = ""
    · rw [if_pos hc] at h
      cases h
    · rw [if_neg hc] at h ⊢
      by_cases hd : (VALIDATE_DATES
          && pystrip ((rowGet r "Next Scheduled Review").getD "") != ""
          && parse_date ((rowGet r "Next Scheduled Review").getD "") == none) = true
      · rw [if_pos hd] at h
        cases h
      · rw [if_neg hd] at h ⊢
        cases ht : pyInt (if (rowGet r "Tier").getD "" = "" then "0" else (rowGet r "Tier").getD "") with
        | none =>
          rw [ht] at h
          cases h
        | some tier =>
          rw [ht] at h
          dsimp only at h ⊢
          rw [ih _ _ h]
          congr 1
          simp only [List.length_cons]
          omega

theorem read_contracts_go_append (pre rest : List Row) (i : Nat) (acc m : Dict (List Contract))
    (h : read_contracts_go i pre acc = .ok m) :
    read_contracts_go i (pre ++ rest) acc = read_contracts_go (i + pre.length) rest m := by
  induction pre generalizing i acc with
  | nil =>
    simp only [read_contracts_go] at h
    cases h
    simp
  | cons r t ih =>
    rw [List.cons_append]
    simp only [read_contracts_go] at h ⊢
    by_cases hc : pystrip ((rowGet r "CaseRef").getD "") = ""
    · rw [if_pos hc] at h
      cases h
    · rw [if_neg hc] at h ⊢
      by_cases hd : (VALIDATE_DATES
          && pystrip ((rowGet r "Agreement date").getD "") != ""
          && parse_date ((rowGet r "Agreement date").getD "") == none) = true
      · rw [if_pos hd] at h
        cases h
      · rw [if_neg hd] at h ⊢
        by_cases he : (VALIDATE_DATES
            && pystrip ((rowGet r "Contract expiry or review date").getD "") != ""
            && parse_date ((rowGet r "Contract expiry or review date").getD "") == none) = true
        · rw [if_pos he] at h
          cases h
        · rw [if_neg he] at h ⊢
          rw [ih _ _ h]
          congr 1
          simp only [List.length_cons]
          omega

/-- C4: in each of the three extractors, a row whose `CaseRef` is blank
(missing, empty, or whitespace-only after stripping) makes the run abort
with a `ValueError` whose message names the source kind and the 1-based file
line of the offending row (`pre.length` data rows precede it and the header
is line 1, so it sits on line `pre.length + 2`); the `Except.error` result
means no output is produced.  The row's position is arbitrary — the only
proviso is that the rows before it processed cleanly (otherwise the run has
already aborted on an earlier row, still producing no output). -/
theorem c4_blank_caseref_aborts :
    (∀ (pre post : List Row) (r : Row) (m : Dict Study),
      read_studies pre = .ok m → blankCase r →
      read_studies (pre ++ r :: post) =
        .error ("Study row missing CaseRef (line " ++ toString (2 + pre.length) ++ ")"))
    ∧ (∀ (pre post : List Row) (r : Row) (m : Dict (List Asset)),
      read_assets_by_case pre = .ok m → blankCase r →
      read_assets_by_case (pre ++ r :: post) =
        .error ("Asset row missing CaseRef (line " ++ toString (2 + pre.length) ++ ")"))
    ∧ (∀ (pre post : List Row) (r : Row) (m : Dict (List Contract)),
      read_study_contracts pre = .ok m → blankCase r →
      read_study_contracts (pre ++ r :: post) =
        .error ("Contract row missing CaseRef (line " ++ toString (2 + pre.length) ++ ")")) := by
  refine ⟨?_, ?_, ?_⟩
  · intro pre post r m h hb
    unfold blankCase at hb
    unfold read_studies at h ⊢
    rw [read_studies_go_append pre (r :: post) 2 [] m h]
    simp only [read_studies_go]
    rw [if_pos hb]
  · intro pre post r m h hb
    unfold blankCase at hb
    unfold read_assets_by_case at h ⊢
    rw [read_assets_go_append pre (r :: post) 2 [] m h]
    simp only [read_assets_go]
    rw [if_pos hb]
  · intro pre post r m h hb
    unfold blankCase at hb
    unfold read_study_contracts at h ⊢
    rw [read_contracts_go_append pre (r :: post) 2 [] m h]
    simp only [read_contracts_go]
    rw [if_pos hb]

/-- C4 witness: a row with no `CaseRef` column as the first data row (file
line 2) of each source. -/
theorem c4_witness :
    (read_studies [] = .ok [] ∧ blankCase []
      ∧ read_studies [[]] = .error "Study row missing CaseRef (line 2)")
    ∧ (read_assets_by_case [] = .ok []
      ∧ read_assets_by_case [[]] = .error "Asset row missing CaseRef (line 2)")
    ∧ (read_study_contracts [] = .ok []
      ∧ read_study_contracts [[]] = .error "Contract row missing CaseRef (line 2)") := by
  refine ⟨⟨by decide, by decide, ?_⟩, ⟨by decide, ?_⟩, ⟨by decide, ?_⟩⟩
  · have h := c4_blank_caseref_aborts.1 [] [] [] [] (by decide) (by decide)
    simpa using h
  · have h := c4_blank_caseref_aborts.2.1 [] [] [] [] (by decide) (by decide)
    simpa using h
  · have h := c4_blank_caseref_aborts.2.2 [] [] [] [] (by decide) (by decide)
    simpa using h

/-! ## C7: the flexible date parser and strict mode -/

/-- An asset row whose "Next Scheduled Review" is non-blank but does not
parse as `%d/%m/%Y`. -/
def badAssetDate (r : Row) : Prop :=
  pystrip ((rowGet r "Next Scheduled Review").getD "") ≠ "" ∧
  parse_date ((rowGet r "Next Scheduled Review").getD "") = none

/-- A contract row one of whose two date columns is non-blank but does not
parse as `%d/%m/%Y`. -/
def badContractDate (r : Row) : Prop :=
  (pystrip ((rowGet r "Agreement date").getD "") ≠ "" ∧
    parse_date ((rowGet r "Agreement date").getD "") = none)
  ∨ (pystrip ((rowGet r "Contract expiry or review date").getD "") ≠ "" ∧
    parse_date ((rowGet r "Contract expiry or review date").getD "") = none)

theorem read_assets_go_error_of_bad (rows : List Row) :
    ∀ (i : Nat) (acc : Dict (List Asset)), (∃ r ∈ rows, badAssetDate r) →
      ∃ e, read_assets_go i rows acc = .error e := by
  induction rows with
  | nil =>
    intro i acc h
    obtain ⟨r, hr, _⟩ := h
    cases hr
  | cons row t ih =>
    intro i acc h
    simp only [read_assets_go]
    by_cases hc : pystrip ((rowGet row "CaseRef").getD "") = ""
    · rw [if_pos hc]
      exact ⟨_, rfl⟩
    · rw [if_neg hc]
      by_cases hd : (VALIDATE_DATES
          && pystrip ((rowGet row "Next Scheduled Review").getD "") != ""
          && parse_date ((rowGet row "Next Scheduled Review").getD "") == none) = true
      · rw [if_pos hd]
        exact ⟨_, rfl⟩
      · rw [if_neg hd]
        obtain ⟨r, hr, hbad⟩ := h
        cases hr with
        | head =>
          exfalso
          apply hd
          rw [hbad.2]
          simp only [VALIDATE_DATES, Bool.and_eq_true, bne_iff_ne, ne_eq]
          exact ⟨⟨by trivial, hbad.1⟩, by decide⟩
        | tail _ hrt =>
          cases ht : pyInt (if (rowGet row "Tier").getD "" = "" then "0"
              else (rowGet row "Tier").getD "") with
          | none => exact ⟨_, rfl⟩
          | some tier =>
            dsimp only
            exact ih (i + 1) _ ⟨r, hrt, hbad⟩

theorem read_contracts_go_error_of_bad (rows : List Row) :
    ∀ (i : Nat) (acc : Dict (List Contract)), (∃ r ∈ rows, badContractDate r) →
      ∃ e, read_contracts_go i rows acc = .error e := by
  induction rows with
  | nil =>
    intro i acc h
    obtain ⟨r, hr, _⟩ := h
    cases hr
  | cons row t ih =>
    intro i acc h
    simp only [read_contracts_go]
    by_cases hc : pystrip ((rowGet row "CaseRef").getD "") = ""
    · rw [if_pos hc]
      exact ⟨_, rfl⟩
    · rw [if_neg hc]
      by_cases hd : (VALIDATE_DATES
          && pystrip ((rowGet row "Agreement date").getD "") != ""
          && parse_date ((rowGet row "Agreement date").getD "") == none) = true
      · rw [if_pos hd]
        exact ⟨_, rfl⟩
      · rw [if_neg hd]
        by_cases he : (VALIDATE_DATES
            && pystrip ((rowGet row "Contract expiry or review date").getD "") != ""
            && parse_date ((rowGet row "Contract expiry or review date").getD "") == none) = true
        · rw [if_pos he]
          exact ⟨_, rfl⟩
        · rw [if_neg he]
          obtain ⟨r, hr, hbad⟩ := h
          cases hr with
          | head =>
            exfalso
            cases hbad with
            | inl hb =>
              apply hd
              rw [hb.2]
              simp only [VALIDATE_DATES, Bool.and_eq_true, bne_iff_ne, ne_eq]
              exact ⟨⟨by trivial, hb.1⟩, by decide⟩
            | inr hb =>
              apply he
              rw [hb.2]
              simp only [VALIDATE_DATES, Bool.and_eq_true, bne_iff_ne, ne_eq]
              exact ⟨⟨by trivial, hb.1⟩, by decide⟩
          | tail _ hrt =>
            exact ih (i + 1) _ ⟨r, hrt, hbad⟩

/-- C7: `parse_date` accepts day/month/year with `/` separators — on the
claim's examples, `"05/03/2024"` yields the ISO string `"2024-03-05"` while
the already-ISO `"2024-03-05"` (wrong separator and order for the flexible
format) silently yields `none`; strict mode (`VALIDATE_DATES`) is on, and a
non-blank unparseable date string in any asset or contract row turns the
silent `none` into a structural error that aborts the read. -/
theorem c7_flexible_date_parsing :
    parse_date "05/03/2024" = some "2024-03-05"
    ∧ parse_date "2024-03-05" = none
    ∧ VALIDATE_DATES = true
    ∧ (∀ rows : List Row, (∃ r ∈ rows, badAssetDate r) →
        ∃ e, read_assets_by_case rows = .error e)
    ∧ (∀ rows : List Row, (∃ r ∈ rows, badContractDate r) →
        ∃ e, read_study_contracts rows = .error e) := by
  refine ⟨by decide, by decide, rfl, ?_, ?_⟩
  · intro rows h
    exact read_assets_go_error_of_bad rows 2 [] h
  · intro rows h
    exact read_contracts_go_error_of_bad rows 2 [] h

/-- C7 witness: an asset row and a contract row carrying the ISO-formatted
string (unparseable for the flexible parser) make the extractors abort. -/
theorem c7_witness :
    (∃ r ∈ [[("CaseRef", "S1"), ("Next Scheduled Review", "2024-03-05")]], badAssetDate r)
    ∧ (∃ e, read_assets_by_case [[("CaseRef", "S1"), ("Next Scheduled Review", "2024-03-05")]] =
        .error e)
    ∧ (∃ r ∈ [[("CaseRef", "S1"), ("Agreement date", "bogus")]], badContractDate r)
    ∧ (∃ e, read_study_contracts [[("CaseRef", "S1"), ("Agreement date", "bogus")]] =
        .error e) := by
  refine ⟨?_, ?_, ?_, ?_⟩
  · exact ⟨_, List.mem_cons_self _ _, by decide, by decide⟩
  · exact c7_flexible_date_parsing.2.2.2.1 _ ⟨_, List.mem_cons_self _ _, by decide, by decide⟩
  · exact ⟨_, List.mem_cons_self _ _, Or.inl ⟨by decide, by decide⟩⟩
  · exact c7_flexible_date_parsing.2.2.2.2 _ ⟨_, List.mem_cons_self _ _, Or.inl ⟨by decide, by decide⟩⟩

/-! ## C5: orphaned children are dropped, childless parents get empty lists -/

theorem dinsert_invariant (P : String → α → Prop) (d : Dict α) (k : String) (v : α)
    (hd : ∀ p ∈ d, P p.1 p.2) (hv : P k v) : ∀ p ∈ dinsert d k v, P p.1 p.2 := by
  induction d with
  | nil =>
    intro p hp
    rw [dinsert] at hp
    rcases List.mem_singleton.mp hp with rfl
    exact hv
  | cons q t ih =>
    intro p hp
    rw [dinsert] at hp
    by_cases hqk : (q.1 == k) = true
    · rw [if_pos hqk] at hp
      cases hp with
      | head => exact hv
      | tail _ hpt => exact hd p (List.mem_cons_of_mem q hpt)
    · rw [if_neg hqk] at hp
      cases hp with
      | head => exact hd q (List.mem_cons_self q t)
      | tail _ hpt =>
        exact ih (fun p2 hp2 => hd p2 (List.mem_cons_of_mem q hp2)) p hpt

theorem dappend_invariant (P : String → α → Prop) (d : Dict (List α)) (k : String) (v : α)
    (hd : ∀ p ∈ d, ∀ a ∈ p.2, P p.1 a) (hv : P k v) :
    ∀ p ∈ dappend d k v, ∀ a ∈ p.2, P p.1 a := by
  induction d with
  | nil =>
    intro p hp a ha
    rw [dappend] at hp
    rcases List.mem_singleton.mp hp with rfl
    rcases List.mem_singleton.mp ha with rfl
    exact hv
  | cons q t ih =>
    intro p hp a ha
    rw [dappend] at hp
    by_cases hqk : (q.1 == k) = true
    · rw [if_pos hqk] at hp
      cases hp with
      | head =>
        rcases List.mem_append.mp ha with h2 | h2
        · exact hd q (List.mem_cons_self q t) a h2
        · rcases List.mem_singleton.mp h2 with rfl
          rw [beq_iff_eq.mp hqk]
          exact hv
      | tail _ hpt => exact hd p (List.mem_cons_of_mem q hpt) a ha
    · rw [if_neg hqk] at hp
      cases hp with
      | head => exact hd q (List.mem_cons_self q t) a ha
      | tail _ hpt =>
        exact ih (fun p2 hp2 => hd p2 (List.mem_cons_of_mem q hp2)) p hpt a ha

theorem read_studies_go_invariant (rows : List Row) :
    ∀ (i : Nat) (acc m : Dict Study), read_studies_go i rows acc = .ok m →
      (∀ p ∈ acc, p.2.caseref = p.1) → ∀ p ∈ m, p.2.caseref = p.1 := by
  induction rows with
  | nil =>
    intro i acc m h hacc
    simp only [read_studies_go] at h
    cases h
    exact hacc
  | cons row t ih =>
    intro i acc m h hacc
    simp only [read_studies_go] at h
    by_cases hc : pystrip ((rowGet row "CaseRef").getD "") = ""
    · rw [if_pos hc] at h
      cases h
    · rw [if_neg hc] at h
      exact ih _ _ _ h
        (dinsert_invariant (fun k st => st.caseref = k) acc
          (pystrip ((rowGet row "CaseRef").getD ""))
          (mkStudy row (pystrip ((rowGet row "CaseRef").getD ""))) hacc rfl)

theorem read_assets_go_invariant (rows : List Row) :
    ∀ (i : Nat) (acc m : Dict (List Asset)), read_assets_go i rows acc = .ok m →
      (∀ p ∈ acc, ∀ a ∈ p.2, a.caseref = p.1) → ∀ p ∈ m, ∀ a ∈ p.2, a.caseref = p.1 := by
  induction rows with
  | nil =>
    intro i acc m h hacc
    simp only [read_assets_go] at h
    cases h
    exact hacc
  | cons row t ih =>
    intro i acc m h hacc
    simp only [read_assets_go] at h
    by_cases hc : pystrip ((rowGet row "CaseRef").getD "") = ""
    · rw [if_pos hc] at h
      cases h
    · rw [if_neg hc] at h
      by_cases hd : (VALIDATE_DATES
          && pystrip ((rowGet row "Next Scheduled Review").getD "") != ""
          && parse_date ((rowGet row "Next Scheduled Review").getD "") == none) = true
      · rw [if_pos hd] at h
        cases h
      · rw [if_neg hd] at h
        cases ht : pyInt (if (rowGet row "Tier").getD "" = "" then "0"
            else (rowGet row "Tier").getD "") with
        | none =>
          rw [ht] at h
          cases h
        | some tier =>
          rw [ht] at h
          dsimp only at h
          exact ih _ _ _ h
            (dappend_invariant (fun k a => a.caseref = k) acc
              (pystrip ((rowGet row "CaseRef").getD ""))
              (mkAsset row (pystrip ((rowGet row "CaseRef").getD ""))
                (parse_date ((rowGet row "Next Scheduled Review").getD "")) tier) hacc rfl)

theorem read_contracts_go_invariant (rows : List Row) :
    ∀ (i : Nat) (acc m : Dict (List Contract)), read_contracts_go i rows acc = .ok m →
      (∀ p ∈ acc, ∀ c ∈ p.2, c.caseref = p.1) → ∀ p ∈ m, ∀ c ∈ p.2, c.caseref = p.1 := by
  induction rows with
  | nil =>
    intro i acc m h hacc
    simp only [read_contracts_go] at h
    cases h
    exact hacc
  | cons row t ih =>
    intro i acc m h hacc
    simp only [read_contracts_go] at h
    by_cases hc : pystrip ((rowGet row "CaseRef").getD "") = ""
    · rw [if_pos hc] at h
      cases h
    · rw [if_neg hc] at h
      by_cases hd : (VALIDATE_DATES
          && pystrip ((rowGet row "Agreement date").getD "") != ""
          && parse_date ((rowGet row "Agreement date").getD "") == none) = true
      · rw [if_pos hd] at h
        cases h
      · rw [if_neg hd] at h
        by_cases he : (VALIDATE_DATES
            && pystrip ((rowGet row "Contract expiry or review date").getD "") != ""
            && parse_date ((rowGet row "Contract expiry or review date").getD "") == none) = true
        · rw [if_pos he] at h
          cases h
        · rw [if_neg he] at h
          exact ih _ _ _ h
            (dappend_invariant (fun k c => c.caseref = k) acc
              (pystrip ((rowGet row "CaseRef").getD ""))
              (mkContract row (pystrip ((rowGet row "CaseRef").getD ""))
                (parse_date ((rowGet row "Agreement date").getD ""))
                (parse_date ((rowGet row "Contract expiry or review date").getD ""))) hacc rfl)

theorem dget_some_mem (d : Dict α) (k : String) (l : α) (h : dget d k = some l) :
    ∃ q ∈ d, q.1 = k ∧ q.2 = l := by
  unfold dget at h
  cases hf : d.find? (fun p => p.1 == k) with
  | none =>
    rw [hf] at h
    cases h
  | some q =>
    rw [hf] at h
    have hqk0 := List.find?_some hf
    have hqk : (q.1 == k) = true := hqk0
    exact ⟨q, List.mem_of_find?_eq_some hf, beq_iff_eq.mp hqk, Option.some_inj.mp h⟩

/-- The per-study attachment step of `build_import_json`. -/
theorem mem_build_import_json (studies : Dict Study) (aby : Dict (List Asset))
    (cby : Dict (List Contract)) (s : Study) :
    s ∈ build_import_json studies aby cby ↔
      ∃ p ∈ studies,
        s = { p.2 with
                contracts := dgetD cby p.1 []
                assets := pySort assetLe (dgetD aby p.1 []) } := by
  unfold build_import_json
  rw [mem_pySort, List.mem_map]
  constructor
  · intro ⟨p, hp, he⟩
    exact ⟨p, hp, he.symm⟩
  · intro ⟨p, hp, he⟩
    exact ⟨p, hp, he.symm⟩

/-- C5: children are attached only by looking up each study's key, so an
asset or contract appearing anywhere in the merged output has a `caseref`
that is a study key — contrapositively, a child whose foreign key matches no
study key is absent from every collection and from everywhere else in the
output; a study whose key has no asset and no contract group gets two empty
collections. -/
theorem c5_orphan_children_dropped (srows arows crows : List Row)
    (studies : Dict Study) (aby : Dict (List Asset)) (cby : Dict (List Contract))
    (hs : read_studies srows = .ok studies)
    (ha : read_assets_by_case arows = .ok aby)
    (hc : read_study_contracts crows = .ok cby) :
    (∀ c ∈ allContracts (build_import_json studies aby cby), c.caseref ∈ dkeys studies)
    ∧ (∀ a ∈ allAssets (build_import_json studies aby cby), a.caseref ∈ dkeys studies)
    ∧ (∀ p ∈ studies, p.1 ∉ dkeys aby → p.1 ∉ dkeys cby →
        ∃ s ∈ build_import_json studies aby cby,
          s.caseref = p.1 ∧ s.assets = [] ∧ s.contracts = []) := by
  have hstud : ∀ p ∈ studies, p.2.caseref = p.1 :=
    read_studies_go_invariant srows 2 [] studies hs (by intro p hp; cases hp)
  have hagrp : ∀ p ∈ aby, ∀ a ∈ p.2, a.caseref = p.1 :=
    read_assets_go_invariant arows 2 [] aby ha (by intro p hp; cases hp)
  have hcgrp : ∀ p ∈ cby, ∀ c ∈ p.2, c.caseref = p.1 :=
    read_contracts_go_invariant crows 2 [] cby hc (by intro p hp; cases hp)
  refine ⟨?_, ?_, ?_⟩
  · intro c hcm
    unfold allContracts at hcm
    rw [List.mem_flatten] at hcm
    obtain ⟨l, hl, hcl⟩ := hcm
    rw [List.mem_map] at hl
    obtain ⟨s, hsmem, rfl⟩ := hl
    rw [mem_build_import_json] at hsmem
    obtain ⟨p, hp, rfl⟩ := hsmem
    simp only at hcl
    unfold dgetD at hcl
    cases hg : dget cby p.1 with
    | none =>
      rw [hg] at hcl
      cases hcl
    | some l2 =>
      rw [hg] at hcl
      obtain ⟨q, hq, hqk, rfl⟩ := dget_some_mem cby p.1 l2 hg
      rw [hcgrp q hq c hcl, hqk]
      exact List.mem_map.mpr ⟨p, hp, rfl⟩
  · intro a ham
    unfold allAssets at ham
    rw [List.mem_flatten] at ham
    obtain ⟨l, hl, hal⟩ := ham
    rw [List.mem_map] at hl
    obtain ⟨s, hsmem, rfl⟩ := hl
    rw [mem_build_import_json] at hsmem
    obtain ⟨p, hp, rfl⟩ := hsmem
    simp only at hal
    rw [mem_pySort] at hal
    unfold dgetD at hal
    cases hg : dget aby p.1 with
    | none =>
      rw [hg] at hal
      cases hal
    | some l2 =>
      rw [hg] at hal
      obtain ⟨q, hq, hqk, rfl⟩ := dget_some_mem aby p.1 l2 hg
      rw [hagrp q hq a hal, hqk]
      exact List.mem_map.mpr ⟨p, hp, rfl⟩
  · intro p hp hna hnc
    refine ⟨{ p.2 with
                contracts := dgetD cby p.1 []
                assets := pySort assetLe (dgetD aby p.1 []) },
      (mem_build_import_json studies aby cby _).mpr ⟨p, hp, rfl⟩, hstud p hp, ?_, ?_⟩
    · show pySort assetLe (dgetD aby p.1 []) = []
      unfold dgetD
      rw [dget_eq_none aby p.1 hna]
      rfl
    · show dgetD cby p.1 [] = []
      unfold dgetD
      rw [dget_eq_none cby p.1 hnc]
      rfl

/-- C5 witness: one study `"S1"`, no assets, one contract filed under the
unmatched key `"X"`: the orphan is dropped and `"S1"` gets empty
collections. -/
theorem c5_witness :
    (read_studies [[("CaseRef", "S1")]] =
      .ok [("S1", mkStudy [("CaseRef", "S1")] "S1")])
    ∧ (∀ p ∈ ([("S1", mkStudy [("CaseRef", "S1")] "S1")] : Dict Study),
        p.1 ∉ dkeys (([] : Dict (List Asset))) →
        p.1 ∉ dkeys ((read_study_contracts [[("CaseRef", "X"), ("ID", "c1")]]).toOption.getD []) →
        ∃ s ∈ build_import_json [("S1", mkStudy [("CaseRef", "S1")] "S1")] []
            ((read_study_contracts [[("CaseRef", "X"), ("ID", "c1")]]).toOption.getD []),
          s.caseref = p.1 ∧ s.assets = [] ∧ s.contracts = []) := by
  constructor
  · decide
  · exact (c5_orphan_children_dropped [[("CaseRef", "S1")]] []
      [[("CaseRef", "X"), ("ID", "c1")]] _ _ _ (by decide) (by decide) (by decide)).2.2

end IGMigration


namespace IGMigration

/-! ## C2: deterministic sorting -/

theorem lexLeL_antisymm (a b : List Char) (h1 : lexLeL a b = true) (h2 : lexLeL b a = true) :
    a = b := by
  induction a generalizing b with
  | nil =>
    cases b with
    | nil => rfl
    | cons y ys => simp [lexLeL] at h2
  | cons x xs ih =>
    cases b with
    | nil => simp [lexLeL] at h1
    | cons y ys =>
      unfold lexLeL at h1 h2
      by_cases hxy : x.toNat < y.toNat
      · rw [if_neg (by omega), if_pos hxy] at h2
        cases h2
      · by_cases hyx : y.toNat < x.toNat
        · rw [if_pos hyx] at h2
          rw [if_neg hxy, if_pos hyx] at h1
          cases h1
        · rw [if_neg hxy, if_neg hyx] at h1
          rw [if_neg hyx, if_neg hxy] at h2
          have hx : x = y := toNat_inj_char (by omega)
          rw [hx, ih ys h1 h2]

theorem string_ext (a b : String) (h : a.data = b.data) : a = b := by
  cases a
  cases b
  simp only at h
  rw [h]

theorem strLeB_antisymm (a b : String) (h1 : strLeB a b = true) (h2 : strLeB b a = true) :
    a = b :=
  string_ext a b (lexLeL_antisymm a.data b.data h1 h2)

theorem keyPairLe_total (k1a k2a k1b k2b : String) :
    keyPairLe k1a k2a k1b k2b || keyPairLe k1b k2b k1a k2a := by
  unfold keyPairLe
  by_cases h : k1a = k1b
  · rw [if_pos h, if_pos h.symm]
    exact strLeB_total k2a k2b
  · rw [if_neg h, if_neg (fun hh => h hh.symm)]
    exact strLeB_total k1a k1b

theorem keyPairLe_trans (k1a k2a k1b k2b k1c k2c : String)
    (h1 : keyPairLe k1a k2a k1b k2b = true) (h2 : keyPairLe k1b k2b k1c k2c = true) :
    keyPairLe k1a k2a k1c k2c = true := by
  unfold keyPairLe at h1 h2 ⊢
  by_cases hab : k1a = k1b
  · rw [if_pos hab] at h1
    by_cases hbc : k1b = k1c
    · rw [if_pos hbc] at h2
      rw [if_pos (hab.trans hbc)]
      exact strLeB_trans _ _ _ h1 h2
    · rw [if_neg hbc] at h2
      rw [hab, if_neg hbc]
      exact h2
  · rw [if_neg hab] at h1
    by_cases hbc : k1b = k1c
    · rw [← hbc, if_neg hab]
      exact h1
    · rw [if_neg hbc] at h2
      by_cases hac : k1a = k1c
      · exfalso
        apply hab
        apply strLeB_antisymm _ _ h1
        rw [hac]
        exact h2
      · rw [if_neg hac]
        exact strLeB_trans _ _ _ h1 h2

theorem assetLe_total (a b : Asset) : assetLe a b || assetLe b a :=
  keyPairLe_total _ _ _ _

theorem assetLe_trans (a b c : Asset) (h1 : assetLe a b = true) (h2 : assetLe b c = true) :
    assetLe a c = true :=
  keyPairLe_trans _ _ _ _ _ _ h1 h2

theorem studyLe_total (a b : Study) : studyLe a b || studyLe b a :=
  strLeB_total _ _

theorem studyLe_trans (a b c : Study) (h1 : studyLe a b = true) (h2 : studyLe b c = true) :
    studyLe a c = true :=
  strLeB_trans _ _ _ h1 h2

/-- C2 counterexample: the claim requires each study's `contracts` collection
to be sorted ascending by its primary id, but `build_import_json` never sorts
contracts: two contract rows supplied in the order `"b"`, `"a"` come out in
that same order, and `"b"` does not precede `"a"` in ordinal order. -/
theorem c2_counterexample :
    ((build_import_json ((read_studies [[("CaseRef", "S1")]]).toOption.getD []) []
        ((read_study_contracts [[("CaseRef", "S1"), ("ID", "b")],
          [("CaseRef", "S1"), ("ID", "a")]]).toOption.getD [])).map
      (fun s => s.contracts.map Contract.contract_sp_id)) = [["b", "a"]]
    ∧ strLeB "b" "a" = false := by decide

/-- C2 amended: the flat merge's records are sorted ascending by username and
the studies are sorted ascending by `caseref` (ordinal comparison); each
study's `assets` are sorted by the composite key `(asset_sp_id, title)`; but
each study's `contracts` are exactly the extractor's group for that study
key, in input row order — they are not sorted, so contract order in the
output follows input order rather than being canonical. -/
theorem c2_sorting (t : Dict (Option Date)) (ag : Dict Bool)
    (studies : Dict Study) (aby : Dict (List Asset)) (cby : Dict (List Contract)) :
    ((merge_records t ag).map Record.username).Pairwise (fun u v => strLeB u v = true)
    ∧ ((build_import_json studies aby cby).map Study.caseref).Pairwise
        (fun a b => strLeB a b = true)
    ∧ (∀ s ∈ build_import_json studies aby cby,
        s.assets.Pairwise (fun a b => assetLe a b = true))
    ∧ (∀ p ∈ studies, ∃ s ∈ build_import_json studies aby cby,
        s.contracts = dgetD cby p.1 [] ∧ s.assets = pySort assetLe (dgetD aby p.1 [])) := by
  refine ⟨?_, ?_, ?_, ?_⟩
  · have hmap : (merge_records t ag).map Record.username =
        pySort strLeB ((dkeys t ++ dkeys ag).dedup) := by
      unfold merge_records
      rw [List.map_map]
      exact List.map_id' _
    rw [hmap]
    exact sorted_pySort strLeB strLeB_total strLeB_trans _
  · unfold build_import_json
    have hsorted := sorted_pySort studyLe studyLe_total studyLe_trans
      (studies.map (fun p =>
        { p.2 with
            contracts := dgetD cby p.1 []
            assets := pySort assetLe (dgetD aby p.1 []) }))
    rw [List.pairwise_map]
    exact hsorted
  · intro s hs
    rw [mem_build_import_json] at hs
    obtain ⟨p, _, rfl⟩ := hs
    exact sorted_pySort assetLe assetLe_total assetLe_trans _
  · intro p hp
    exact ⟨{ p.2 with
               contracts := dgetD cby p.1 []
               assets := pySort assetLe (dgetD aby p.1 []) },
      (mem_build_import_json studies aby cby _).mpr ⟨p, hp, rfl⟩, rfl, rfl⟩

/-- C2 witness: instantiating the sortedness statement on a two-study input
shows the output caserefs in ascending order. -/
theorem c2_witness :
    (("S2", mkStudy [("CaseRef", "S2")] "S2") ∈
      ([("S2", mkStudy [("CaseRef", "S2")] "S2"),
        ("S1", mkStudy [("CaseRef", "S1")] "S1")] : Dict Study))
    ∧ ((build_import_json
        [("S2", mkStudy [("CaseRef", "S2")] "S2"),
         ("S1", mkStudy [("CaseRef", "S1")] "S1")] [] []).map Study.caseref).Pairwise
        (fun a b => strLeB a b = true) :=
  ⟨by decide,
    (c2_sorting [] []
      [("S2", mkStudy [("CaseRef", "S2")] "S2"),
       ("S1", mkStudy [("CaseRef", "S1")] "S1")] [] []).2.1⟩

end IGMigration

namespace IGMigration

/-! ## C6 and C10: the Validator's uniqueness checks

Counting machinery for the issue strings `validate` can emit.  The three
"duplicate" message families are told apart by their first character
(`'S'` vs `'D'`) and, within the `"Duplicate ..."` family, by the character
at index 10 (`'C'`/`'c'`/`'a'`). -/

def msgDupCase (cr : String) : String :=
  "Duplicate CaseRef in merged data: " ++ cr

def msgDupContract (v : String) : String :=
  "Duplicate contract_sp_id: " ++ v

def msgDupAsset (v : String) : String :=
  "Duplicate asset_sp_id: " ++ v

/-- Occurrences of an issue string in the issue list. -/
def eCount (m : String) (es : List String) : Nat :=
  es.countP (fun e => e == m)

/-- Contracts carrying a given identity. -/
def cCount (v : String) (cs : List Contract) : Nat :=
  cs.countP (fun c => c.contract_sp_id == v)

/-- Assets carrying a given identity. -/
def aCount (v : String) (l : List Asset) : Nat :=
  l.countP (fun a => a.asset_sp_id == v)

/-- Occurrences of a key in a key list. -/
def kCount (v : String) (l : List String) : Nat :=
  l.countP (fun k => k == v)

theorem eCount_append (m : String) (l1 l2 : List String) :
    eCount m (l1 ++ l2) = eCount m l1 + eCount m l2 :=
  List.countP_append _ _ _

theorem eCount_nil (m : String) : eCount m [] = 0 := rfl

theorem eCount_single_ne (m e : String) (h : e ≠ m) : eCount m [e] = 0 := by
  simp [eCount, List.countP_cons, h]

theorem eCount_single_self (m : String) : eCount m [m] = 1 := by
  simp [eCount, List.countP_cons]

theorem ne_of_getElem? {i : Nat} {s t : String} {cs ct : Char}
    (hs : s.data[i]? = some cs) (ht : t.data[i]? = some ct) (hne : cs ≠ ct) : s ≠ t := by
  intro he
  rw [he, ht] at hs
  exact hne (Option.some_inj.mp hs).symm

theorem get_append_left (p a : String) (i : Nat) (hp : i < p.data.length) :
    (p ++ a).data[i]? = p.data[i]? := by
  rw [data_append]
  exact List.getElem?_append_left hp

theorem get0_append (s t : String) (c : Char) (h : s.data[0]? = some c) :
    (s ++ t).data[0]? = some c := by
  have hlen : 0 < s.data.length := by
    cases hd : s.data with
    | nil => rw [hd] at h; cases h
    | cons x xs => simp [hd]
  rw [get_append_left s t 0 hlen]
  exact h

theorem get0_study (x : String) : ("Study " ++ x).data[0]? = some 'S' :=
  get0_append _ _ _ (by decide)

theorem get0_dupCase (x : String) : (msgDupCase x).data[0]? = some 'D' :=
  get0_append _ _ _ (by decide)

theorem get0_dupContract (x : String) : (msgDupContract x).data[0]? = some 'D' :=
  get0_append _ _ _ (by decide)

theorem get0_dupAsset (x : String) : (msgDupAsset x).data[0]? = some 'D' :=
  get0_append _ _ _ (by decide)

theorem get10_dupCase (x : String) : (msgDupCase x).data[10]? = some 'C' := by
  unfold msgDupCase
  rw [get_append_left _ _ 10 (by decide)]
  decide

theorem get10_dupContract (x : String) : (msgDupContract x).data[10]? = some 'c' := by
  unfold msgDupContract
  rw [get_append_left _ _ 10 (by decide)]
  decide

theorem get10_dupAsset (x : String) : (msgDupAsset x).data[10]? = some 'a' := by
  unfold msgDupAsset
  rw [get_append_left _ _ 10 (by decide)]
  decide

theorem dupCase_ne_dupContract (x v : String) : msgDupCase x ≠ msgDupContract v :=
  ne_of_getElem? (get10_dupCase x) (get10_dupContract v) (by decide)

theorem dupCase_ne_dupAsset (x v : String) : msgDupCase x ≠ msgDupAsset v :=
  ne_of_getElem? (get10_dupCase x) (get10_dupAsset v) (by decide)

theorem dupContract_ne_dupCase (x v : String) : msgDupContract x ≠ msgDupCase v :=
  ne_of_getElem? (get10_dupContract x) (get10_dupCase v) (by decide)

theorem dupContract_ne_dupAsset (x v : String) : msgDupContract x ≠ msgDupAsset v :=
  ne_of_getElem? (get10_dupContract x) (get10_dupAsset v) (by decide)

theorem dupAsset_ne_dupCase (x v : String) : msgDupAsset x ≠ msgDupCase v :=
  ne_of_getElem? (get10_dupAsset x) (get10_dupCase v) (by decide)

theorem dupAsset_ne_dupContract (x v : String) : msgDupAsset x ≠ msgDupContract v :=
  ne_of_getElem? (get10_dupAsset x) (get10_dupContract v) (by decide)

theorem dupAsset_inj {x v : String} (h : msgDupAsset x = msgDupAsset v) : x = v := by
  unfold msgDupAsset at h
  have := congrArg String.data h
  rw [data_append, data_append] at this
  exact string_ext x v (List.append_cancel_left this)

/-- Any string starting with `'S'` differs from the three duplicate-message
families (which start with `'D'`) and in particular from
`"Study missing CaseRef"`-shaped comparisons handled separately. -/
theorem studyish_ne_dupCase (s : String) (hs : s.data[0]? = some 'S') (v : String) :
    s ≠ msgDupCase v :=
  ne_of_getElem? hs (get0_dupCase v) (by decide)

theorem studyish_ne_dupContract (s : String) (hs : s.data[0]? = some 'S') (v : String) :
    s ≠ msgDupContract v :=
  ne_of_getElem? hs (get0_dupContract v) (by decide)

theorem studyish_ne_dupAsset (s : String) (hs : s.data[0]? = some 'S') (v : String) :
    s ≠ msgDupAsset v :=
  ne_of_getElem? hs (get0_dupAsset v) (by decide)

end IGMigration

namespace IGMigration

theorem dupContract_inj {x v : String} (h : msgDupContract x = msgDupContract v) : x = v := by
  unfold msgDupContract at h
  have := congrArg String.data h
  rw [data_append, data_append] at this
  exact string_ext x v (List.append_cancel_left this)

theorem dupCase_inj {x v : String} (h : msgDupCase x = msgDupCase v) : x = v := by
  unfold msgDupCase at h
  have := congrArg String.data h
  rw [data_append, data_append] at this
  exact string_ext x v (List.append_cancel_left this)

theorem get0_chain2 (x y : String) : ("Study " ++ x ++ y).data[0]? = some 'S' :=
  get0_append _ _ _ (get0_study x)

theorem get0_chain4 (x y z w : String) :
    ("Study " ++ x ++ y ++ z ++ w).data[0]? = some 'S' :=
  get0_append _ _ _ (get0_append _ _ _ (get0_append _ _ _ (get0_study x)))

theorem get0_chain5 (x y z w u : String) :
    ("Study " ++ x ++ y ++ z ++ w ++ u).data[0]? = some 'S' :=
  get0_append _ _ _ (get0_chain4 x y z w)

theorem mem_setAdd (s : List String) (x v : String) :
    v ∈ setAdd s x ↔ v ∈ s ∨ v = x := by
  unfold setAdd
  by_cases hx : x ∈ s
  · rw [if_pos hx]
    constructor
    · exact Or.inl
    · intro h
      cases h with
      | inl h => exact h
      | inr h => rw [h]; exact hx
  · rw [if_neg hx]
    rw [List.mem_cons]
    exact Or.comm

/-- The first (uniqueness) part of the contract loop body. -/
def contract_uniq_stage (cr : String) (st : VSt) (c : Contract) : VSt :=
  let cref := c.contract_sp_id
  if cref = "" then
    { st with errors := st.errors ++ ["Study " ++ cr ++ ": contract missing contract_sp_id"] }
  else if cref ∈ st.seen_contract then
    { st with errors := st.errors ++ ["Duplicate contract_sp_id: " ++ cref] }
  else
    { st with seen_contract := setAdd st.seen_contract cref }

/-- The second (strict-date) part of the contract loop body. -/
def contract_date_stage (vd : Bool) (cr : String) (c : Contract) (st : VSt) : VSt :=
  let cref := c.contract_sp_id
  if vd then
    let sd := c.start_date.getD ""
    let ed := c.expiry_date.getD ""
    let st2 :=
      if sd != "" && validate_json_date sd == none then
        { st with errors := st.errors ++
            ["Study " ++ cr ++ ": contract " ++ cref ++ " invalid start_date: " ++ sd] }
      else st
    if ed != "" && validate_json_date ed == none then
      { st2 with errors := st2.errors ++
          ["Study " ++ cr ++ ": contract " ++ cref ++ " invalid expiry_date: " ++ ed] }
    else st2
  else st

theorem validate_contract_eq (vd : Bool) (cr : String) (st : VSt) (c : Contract) :
    validate_contract vd cr st c = contract_date_stage vd cr c (contract_uniq_stage cr st c) :=
  rfl

theorem contract_date_stage_spec (vd : Bool) (cr : String) (c : Contract) (st : VSt) :
    ∃ extra : List String,
      (contract_date_stage vd cr c st).errors = st.errors ++ extra
      ∧ (contract_date_stage vd cr c st).seen_case = st.seen_case
      ∧ (contract_date_stage vd cr c st).seen_asset = st.seen_asset
      ∧ (contract_date_stage vd cr c st).seen_contract = st.seen_contract
      ∧ (∀ w : String, eCount (msgDupContract w) extra = 0)
      ∧ (∀ w : String, eCount (msgDupAsset w) extra = 0)
      ∧ (∀ w : String, eCount (msgDupCase w) extra = 0) := by
  unfold contract_date_stage
  by_cases hvd : vd = true
  · rw [if_pos hvd]
    dsimp only
    by_cases h1 : (c.start_date.getD "" != ""
        && validate_json_date (c.start_date.getD "") == none) = true
    · rw [if_pos h1]
      by_cases h2 : (c.expiry_date.getD "" != ""
          && validate_json_date (c.expiry_date.getD "") == none) = true
      · rw [if_pos h2]
        refine ⟨["Study " ++ cr ++ ": contract " ++ c.contract_sp_id ++
              " invalid start_date: " ++ c.start_date.getD "",
            "Study " ++ cr ++ ": contract " ++ c.contract_sp_id ++
              " invalid expiry_date: " ++ c.expiry_date.getD ""], ?_, rfl, rfl, rfl, ?_, ?_, ?_⟩
        · show (st.errors ++ [_]) ++ [_] = st.errors ++ _
          rw [List.append_assoc]
          rfl
        · intro w
          rw [show (["Study " ++ cr ++ ": contract " ++ c.contract_sp_id ++
                " invalid start_date: " ++ c.start_date.getD "",
              "Study " ++ cr ++ ": contract " ++ c.contract_sp_id ++
                " invalid expiry_date: " ++ c.expiry_date.getD ""] : List String) =
              [_] ++ [_] from rfl, eCount_append,
            eCount_single_ne _ _ (studyish_ne_dupContract _ (get0_chain5 _ _ _ _ _) w),
            eCount_single_ne _ _ (studyish_ne_dupContract _ (get0_chain5 _ _ _ _ _) w)]
        · intro w
          rw [show (["Study " ++ cr ++ ": contract " ++ c.contract_sp_id ++
                " invalid start_date: " ++ c.start_date.getD "",
              "Study " ++ cr ++ ": contract " ++ c.contract_sp_id ++
                " invalid expiry_date: " ++ c.expiry_date.getD ""] : List String) =
              [_] ++ [_] from rfl, eCount_append,
            eCount_single_ne _ _ (studyish_ne_dupAsset _ (get0_chain5 _ _ _ _ _) w),
            eCount_single_ne _ _ (studyish_ne_dupAsset _ (get0_chain5 _ _ _ _ _) w)]
        · intro w
          rw [show (["Study " ++ cr ++ ": contract " ++ c.contract_sp_id ++
                " invalid start_date: " ++ c.start_date.getD "",
              "Study " ++ cr ++ ": contract " ++ c.contract_sp_id ++
                " invalid expiry_date: " ++ c.expiry_date.getD ""] : List String) =
              [_] ++ [_] from rfl, eCount_append,
            eCount_single_ne _ _ (studyish_ne_dupCase _ (get0_chain5 _ _ _ _ _) w),
            eCount_single_ne _ _ (studyish_ne_dupCase _ (get0_chain5 _ _ _ _ _) w)]
      · rw [if_neg h2]
        refine ⟨[_], rfl, rfl, rfl, rfl, ?_, ?_, ?_⟩
        · intro w
          exact eCount_single_ne _ _ (studyish_ne_dupContract _ (get0_chain5 _ _ _ _ _) w)
        · intro w
          exact eCount_single_ne _ _ (studyish_ne_dupAsset _ (get0_chain5 _ _ _ _ _) w)
        · intro w
          exact eCount_single_ne _ _ (studyish_ne_dupCase _ (get0_chain5 _ _ _ _ _) w)
    · rw [if_neg h1]
      by_cases h2 : (c.expiry_date.getD "" != ""
          && validate_json_date (c.expiry_date.getD "") == none) = true
      · rw [if_pos h2]
        refine ⟨[_], rfl, rfl, rfl, rfl, ?_, ?_, ?_⟩
        · intro w
          exact eCount_single_ne _ _ (studyish_ne_dupContract _ (get0_chain5 _ _ _ _ _) w)
        · intro w
          exact eCount_single_ne _ _ (studyish_ne_dupAsset _ (get0_chain5 _ _ _ _ _) w)
        · intro w
          exact eCount_single_ne _ _ (studyish_ne_dupCase _ (get0_chain5 _ _ _ _ _) w)
      · rw [if_neg h2]
        exact ⟨[], (List.append_nil _).symm, rfl, rfl, rfl,
          fun w => rfl, fun w => rfl, fun w => rfl⟩
  · rw [if_neg hvd]
    exact ⟨[], (List.append_nil _).symm, rfl, rfl, rfl,
      fun w => rfl, fun w => rfl, fun w => rfl⟩

theorem contract_uniq_stage_spec (cr : String) (st : VSt) (c : Contract) :
    ∃ extra : List String,
      (contract_uniq_stage cr st c).errors = st.errors ++ extra
      ∧ (contract_uniq_stage cr st c).seen_case = st.seen_case
      ∧ (contract_uniq_stage cr st c).seen_asset = st.seen_asset
      ∧ (∀ v : String, v ≠ "" →
          (v ∈ (contract_uniq_stage cr st c).seen_contract ↔
            (v ∈ st.seen_contract ∨ c.contract_sp_id = v))
          ∧ eCount (msgDupContract v) extra =
              (if c.contract_sp_id = v ∧ v ∈ st.seen_contract then 1 else 0))
      ∧ (∀ w : String, eCount (msgDupAsset w) extra = 0)
      ∧ (∀ w : String, eCount (msgDupCase w) extra = 0) := by
  unfold contract_uniq_stage
  by_cases hblank : c.contract_sp_id = ""
  · rw [if_pos hblank]
    refine ⟨[_], rfl, rfl, rfl, ?_, ?_, ?_⟩
    · intro v hv
      constructor
      · constructor
        · exact Or.inl
        · intro h
          cases h with
          | inl h => exact h
          | inr h => exact absurd (hblank ▸ h) (Ne.symm hv)
      · rw [eCount_single_ne _ _ (studyish_ne_dupContract _ (get0_chain2 _ _) v)]
        rw [if_neg]
        intro ⟨h1, _⟩
        exact hv (h1 ▸ hblank)
    · intro w
      exact eCount_single_ne _ _ (studyish_ne_dupAsset _ (get0_chain2 _ _) w)
    · intro w
      exact eCount_single_ne _ _ (studyish_ne_dupCase _ (get0_chain2 _ _) w)
  · rw [if_neg hblank]
    by_cases hseen : c.contract_sp_id ∈ st.seen_contract
    · rw [if_pos hseen]
      refine ⟨[_], rfl, rfl, rfl, ?_, ?_, ?_⟩
      · intro v hv
        constructor
        · constructor
          · exact Or.inl
          · intro h
            cases h with
            | inl h => exact h
            | inr h => exact h ▸ hseen
        · show eCount (msgDupContract v) [msgDupContract c.contract_sp_id] = _
          by_cases hcv : c.contract_sp_id = v
          · rw [hcv, eCount_single_self, if_pos ⟨rfl, hcv ▸ hseen⟩]
          · rw [eCount_single_ne _ _ (fun he => hcv (dupContract_inj he))]
            rw [if_neg (fun hh => hcv hh.1)]
      · intro w
        exact eCount_single_ne _ _ (dupContract_ne_dupAsset _ w)
      · intro w
        exact eCount_single_ne _ _ (dupContract_ne_dupCase _ w)
    · rw [if_neg hseen]
      refine ⟨[], (List.append_nil _).symm, rfl, rfl, ?_, fun w => rfl, fun w => rfl⟩
      intro v hv
      constructor
      · show v ∈ setAdd st.seen_contract c.contract_sp_id ↔ _
        rw [mem_setAdd]
        constructor
        · intro h
          cases h with
          | inl h => exact Or.inl h
          | inr h => exact Or.inr h.symm
        · intro h
          cases h with
          | inl h => exact Or.inl h
          | inr h => exact Or.inr h.symm
      · rw [eCount_nil, if_neg]
        intro ⟨h1, h2⟩
        exact hseen (h1 ▸ h2)

end IGMigration

namespace IGMigration

theorem cCount_nil (v : String) : cCount v [] = 0 := rfl

theorem cCount_cons (v : String) (c : Contract) (cs : List Contract) :
    cCount v (c :: cs) = cCount v cs + (if c.contract_sp_id = v then 1 else 0) := by
  unfold cCount
  rw [List.countP_cons]
  congr 1
  by_cases h : c.contract_sp_id = v
  · simp [h]
  · simp [h]

/-- The full contract-loop body: errors grow by the step's messages, the
asset/case state is untouched, and for any non-blank identity the
duplicate-message count and the `seen` membership evolve as on paper. -/
theorem validate_contract_spec (vd : Bool) (cr : String) (st : VSt) (c : Contract) :
    ∃ extra : List String,
      (validate_contract vd cr st c).errors = st.errors ++ extra
      ∧ (validate_contract vd cr st c).seen_case = st.seen_case
      ∧ (validate_contract vd cr st c).seen_asset = st.seen_asset
      ∧ (∀ v : String, v ≠ "" →
          (v ∈ (validate_contract vd cr st c).seen_contract ↔
            (v ∈ st.seen_contract ∨ c.contract_sp_id = v))
          ∧ eCount (msgDupContract v) extra =
              (if c.contract_sp_id = v ∧ v ∈ st.seen_contract then 1 else 0))
      ∧ (∀ w : String, eCount (msgDupAsset w) extra = 0)
      ∧ (∀ w : String, eCount (msgDupCase w) extra = 0) := by
  obtain ⟨e1, he1, hc1, ha1, hu1, hda1, hdc1⟩ := contract_uniq_stage_spec cr st c
  obtain ⟨e2, he2, hc2, ha2, hs2, hdd2, hda2, hdc2⟩ :=
    contract_date_stage_spec vd cr c (contract_uniq_stage cr st c)
  refine ⟨e1 ++ e2, ?_, ?_, ?_, ?_, ?_, ?_⟩
  · rw [validate_contract_eq, he2, he1, List.append_assoc]
  · rw [validate_contract_eq, hc2, hc1]
  · rw [validate_contract_eq, ha2, ha1]
  · intro v hv
    constructor
    · rw [validate_contract_eq, hs2]
      exact (hu1 v hv).1
    · rw [eCount_append, hdd2, (hu1 v hv).2]
      omega
  · intro w
    rw [eCount_append, hda1 w, hda2 w]
  · intro w
    rw [eCount_append, hdc1 w, hdc2 w]

theorem contracts_fold_spec (vd : Bool) (cr : String) (cs : List Contract) :
    ∀ st : VSt, ∃ extra : List String,
      (cs.foldl (validate_contract vd cr) st).errors = st.errors ++ extra
      ∧ (cs.foldl (validate_contract vd cr) st).seen_case = st.seen_case
      ∧ (cs.foldl (validate_contract vd cr) st).seen_asset = st.seen_asset
      ∧ (∀ v : String, v ≠ "" →
          (v ∈ (cs.foldl (validate_contract vd cr) st).seen_contract ↔
            (v ∈ st.seen_contract ∨ 1 ≤ cCount v cs))
          ∧ eCount (msgDupContract v) extra =
              (if v ∈ st.seen_contract then cCount v cs else cCount v cs - 1))
      ∧ (∀ w : String, eCount (msgDupAsset w) extra = 0)
      ∧ (∀ w : String, eCount (msgDupCase w) extra = 0) := by
  induction cs with
  | nil =>
    intro st
    refine ⟨[], (List.append_nil _).symm, rfl, rfl, ?_, fun w => rfl, fun w => rfl⟩
    intro v hv
    refine ⟨?_, ?_⟩
    · rw [cCount_nil]
      simp
    · rw [cCount_nil, eCount_nil]
      by_cases h : v ∈ st.seen_contract
      · rw [if_pos h]
      · rw [if_neg h]
  | cons c cs ih =>
    intro st
    rw [List.foldl_cons]
    obtain ⟨eS, heS, hcS, haS, huS, hdaS, hdcS⟩ := validate_contract_spec vd cr st c
    obtain ⟨eI, heI, hcI, haI, huI, hdaI, hdcI⟩ := ih (validate_contract vd cr st c)
    refine ⟨eS ++ eI, ?_, ?_, ?_, ?_, ?_, ?_⟩
    · rw [heI, heS, List.append_assoc]
    · rw [hcI, hcS]
    · rw [haI, haS]
    · intro v hv
      have hmem := (huS v hv).1
      have hcnt := (huS v hv).2
      have hmemI := (huI v hv).1
      have hcntI := (huI v hv).2
      constructor
      · rw [hmemI, hmem, cCount_cons]
        by_cases hcv : c.contract_sp_id = v
        · rw [if_pos hcv]
          constructor
          · intro h
            rcases h with (h | h) | h
            · exact Or.inl h
            · right; omega
            · right; omega
          · intro h
            cases h with
            | inl h => exact Or.inl (Or.inl h)
            | inr h => exact Or.inl (Or.inr hcv)
        · rw [if_neg hcv]
          constructor
          · intro h
            rcases h with (h | h) | h
            · exact Or.inl h
            · exact absurd h hcv
            · right; omega
          · intro h
            cases h with
            | inl h => exact Or.inl (Or.inl h)
            | inr h => right; omega
      · rw [eCount_append, hcnt, hcntI, cCount_cons]
        by_cases hm : v ∈ st.seen_contract
        · rw [if_pos hm, if_pos (hmem.mpr (Or.inl hm))]
          by_cases hcv : c.contract_sp_id = v
          · rw [if_pos ⟨hcv, hm⟩, if_pos hcv]
            omega
          · rw [if_neg (fun hh => hcv hh.1), if_neg hcv]
            omega
        · rw [if_neg hm]
          by_cases hcv : c.contract_sp_id = v
          · rw [if_pos hcv, if_neg (fun hh => hm hh.2),
              if_pos (hmem.mpr (Or.inr hcv))]
            omega
          · rw [if_neg hcv, if_neg (fun hh => hcv hh.1),
              if_neg (fun hh => (hmem.mp hh).elim hm hcv)]
            omega
    · intro w
      rw [eCount_append, hdaS w, hdaI w]
    · intro w
      rw [eCount_append, hdcS w, hdcI w]

end IGMigration

namespace IGMigration

theorem aCount_nil (v : String) : aCount v [] = 0 := rfl

theorem aCount_cons (v : String) (a : Asset) (l : List Asset) :
    aCount v (a :: l) = aCount v l + (if a.asset_sp_id = v then 1 else 0) := by
  unfold aCount
  rw [List.countP_cons]
  congr 1
  by_cases h : a.asset_sp_id = v
  · simp [h]
  · simp [h]

/-- The first (uniqueness) part of the asset loop body: blank ids are
exempt. -/
def asset_uniq_stage (st : VSt) (a : Asset) : VSt :=
  let aref := a.asset_sp_id
  if aref != "" then
    if aref ∈ st.seen_asset then
      { st with errors := st.errors ++ ["Duplicate asset_sp_id: " ++ aref] }
    else
      { st with seen_asset := setAdd st.seen_asset aref }
  else st

/-- The second (strict-date) part of the asset loop body. -/
def asset_date_stage (vd : Bool) (cr : String) (a : Asset) (st : VSt) : VSt :=
  let aref := a.asset_sp_id
  if vd then
    let ex := a.expires_at.getD ""
    if ex != "" && validate_json_date ex == none then
      { st with errors := st.errors ++
          ["Study " ++ cr ++ ": asset " ++ aref ++ " invalid expires_at: " ++ ex] }
    else st
  else st

theorem validate_asset_eq (vd : Bool) (cr : String) (st : VSt) (a : Asset) :
    validate_asset vd cr st a = asset_date_stage vd cr a (asset_uniq_stage st a) :=
  rfl

theorem asset_date_stage_spec (vd : Bool) (cr : String) (a : Asset) (st : VSt) :
    ∃ extra : List String,
      (asset_date_stage vd cr a st).errors = st.errors ++ extra
      ∧ (asset_date_stage vd cr a st).seen_case = st.seen_case
      ∧ (asset_date_stage vd cr a st).seen_asset = st.seen_asset
      ∧ (asset_date_stage vd cr a st).seen_contract = st.seen_contract
      ∧ (∀ w : String, eCount (msgDupContract w) extra = 0)
      ∧ (∀ w : String, eCount (msgDupAsset w) extra = 0)
      ∧ (∀ w : String, eCount (msgDupCase w) extra = 0) := by
  unfold asset_date_stage
  by_cases hvd : vd = true
  · rw [if_pos hvd]
    dsimp only
    by_cases h1 : (a.expires_at.getD "" != ""
        && validate_json_date (a.expires_at.getD "") == none) = true
    · rw [if_pos h1]
      refine ⟨[_], rfl, rfl, rfl, rfl, ?_, ?_, ?_⟩
      · intro w
        exact eCount_single_ne _ _ (studyish_ne_dupContract _ (get0_chain5 _ _ _ _ _) w)
      · intro w
        exact eCount_single_ne _ _ (studyish_ne_dupAsset _ (get0_chain5 _ _ _ _ _) w)
      · intro w
        exact eCount_single_ne _ _ (studyish_ne_dupCase _ (get0_chain5 _ _ _ _ _) w)
    · rw [if_neg h1]
      exact ⟨[], (List.append_nil _).symm, rfl, rfl, rfl,
        fun w => rfl, fun w => rfl, fun w => rfl⟩
  · rw [if_neg hvd]
    exact ⟨[], (List.append_nil _).symm, rfl, rfl, rfl,
      fun w => rfl, fun w => rfl, fun w => rfl⟩

theorem asset_uniq_stage_spec (st : VSt) (a : Asset) :
    ∃ extra : List String,
      (asset_uniq_stage st a).errors = st.errors ++ extra
      ∧ (asset_uniq_stage st a).seen_case = st.seen_case
      ∧ (asset_uniq_stage st a).seen_contract = st.seen_contract
      ∧ (∀ v : String, v ≠ "" →
          (v ∈ (asset_uniq_stage st a).seen_asset ↔
            (v ∈ st.seen_asset ∨ a.asset_sp_id = v))
          ∧ eCount (msgDupAsset v) extra =
              (if a.asset_sp_id = v ∧ v ∈ st.seen_asset then 1 else 0))
      ∧ eCount (msgDupAsset "") extra = 0
      ∧ (∀ w : String, eCount (msgDupContract w) extra = 0)
      ∧ (∀ w : String, eCount (msgDupCase w) extra = 0) := by
  unfold asset_uniq_stage
  by_cases hne : (a.asset_sp_id != "") = true
  · rw [if_pos hne]
    have hblank : a.asset_sp_id ≠ "" := by simpa using hne
    by_cases hseen : a.asset_sp_id ∈ st.seen_asset
    · rw [if_pos hseen]
      refine ⟨[_], rfl, rfl, rfl, ?_, ?_, ?_, ?_⟩
      · intro v hv
        constructor
        · constructor
          · exact Or.inl
          · intro h
            cases h with
            | inl h => exact h
            | inr h => exact h ▸ hseen
        · show eCount (msgDupAsset v) [msgDupAsset a.asset_sp_id] = _
          by_cases hav : a.asset_sp_id = v
          · rw [hav, eCount_single_self, if_pos ⟨rfl, hav ▸ hseen⟩]
          · rw [eCount_single_ne _ _ (fun he => hav (dupAsset_inj he))]
            rw [if_neg (fun hh => hav hh.1)]
      · show eCount (msgDupAsset "") [msgDupAsset a.asset_sp_id] = 0
        exact eCount_single_ne _ _ (fun he => hblank (dupAsset_inj he))
      · intro w
        exact eCount_single_ne _ _ (dupAsset_ne_dupContract _ w)
      · intro w
        exact eCount_single_ne _ _ (dupAsset_ne_dupCase _ w)
    · rw [if_neg hseen]
      refine ⟨[], (List.append_nil _).symm, rfl, rfl, ?_, rfl, fun w => rfl, fun w => rfl⟩
      intro v hv
      constructor
      · show v ∈ setAdd st.seen_asset a.asset_sp_id ↔ _
        rw [mem_setAdd]
        constructor
        · intro h
          cases h with
          | inl h => exact Or.inl h
          | inr h => exact Or.inr h.symm
        · intro h
          cases h with
          | inl h => exact Or.inl h
          | inr h => exact Or.inr h.symm
      · rw [eCount_nil, if_neg]
        intro ⟨h1, h2⟩
        exact hseen (h1 ▸ h2)
  · rw [if_neg hne]
    have hblank : a.asset_sp_id = "" := by simpa using hne
    refine ⟨[], (List.append_nil _).symm, rfl, rfl, ?_, rfl, fun w => rfl, fun w => rfl⟩
    intro v hv
    constructor
    · constructor
      · exact Or.inl
      · intro h
        cases h with
        | inl h => exact h
        | inr h => exact absurd (hblank ▸ h) (Ne.symm hv)
    · rw [eCount_nil, if_neg]
      intro ⟨h1, _⟩
      exact hv (h1 ▸ hblank)

theorem validate_asset_spec (vd : Bool) (cr : String) (st : VSt) (a : Asset) :
    ∃ extra : List String,
      (validate_asset vd cr st a).errors = st.errors ++ extra
      ∧ (validate_asset vd cr st a).seen_case = st.seen_case
      ∧ (validate_asset vd cr st a).seen_contract = st.seen_contract
      ∧ (∀ v : String, v ≠ "" →
          (v ∈ (validate_asset vd cr st a).seen_asset ↔
            (v ∈ st.seen_asset ∨ a.asset_sp_id = v))
          ∧ eCount (msgDupAsset v) extra =
              (if a.asset_sp_id = v ∧ v ∈ st.seen_asset then 1 else 0))
      ∧ eCount (msgDupAsset "") extra = 0
      ∧ (∀ w : String, eCount (msgDupContract w) extra = 0)
      ∧ (∀ w : String, eCount (msgDupCase w) extra = 0) := by
  obtain ⟨e1, he1, hc1, hs1, hu1, hb1, hdd1, hdc1⟩ := asset_uniq_stage_spec st a
  obtain ⟨e2, he2, hc2, ha2, hs2, hdd2, hda2, hdc2⟩ :=
    asset_date_stage_spec vd cr a (asset_uniq_stage st a)
  refine ⟨e1 ++ e2, ?_, ?_, ?_, ?_, ?_, ?_, ?_⟩
  · rw [validate_asset_eq, he2, he1, List.append_assoc]
  · rw [validate_asset_eq, hc2, hc1]
  · rw [validate_asset_eq, hs2, hs1]
  · intro v hv
    constructor
    · rw [validate_asset_eq, ha2]
      exact (hu1 v hv).1
    · rw [eCount_append, hda2, (hu1 v hv).2]
      omega
  · rw [eCount_append, hb1, hda2]
  · intro w
    rw [eCount_append, hdd1 w, hdd2 w]
  · intro w
    rw [eCount_append, hdc1 w, hdc2 w]

theorem assets_fold_spec (vd : Bool) (cr : String) (l : List Asset) :
    ∀ st : VSt, ∃ extra : List String,
      (l.foldl (validate_asset vd cr) st).errors = st.errors ++ extra
      ∧ (l.foldl (validate_asset vd cr) st).seen_case = st.seen_case
      ∧ (l.foldl (validate_asset vd cr) st).seen_contract = st.seen_contract
      ∧ (∀ v : String, v ≠ "" →
          (v ∈ (l.foldl (validate_asset vd cr) st).seen_asset ↔
            (v ∈ st.seen_asset ∨ 1 ≤ aCount v l))
          ∧ eCount (msgDupAsset v) extra =
              (if v ∈ st.seen_asset then aCount v l else aCount v l - 1))
      ∧ eCount (msgDupAsset "") extra = 0
      ∧ (∀ w : String, eCount (msgDupContract w) extra = 0)
      ∧ (∀ w : String, eCount (msgDupCase w) extra = 0) := by
  induction l with
  | nil =>
    intro st
    refine ⟨[], (List.append_nil _).symm, rfl, rfl, ?_, rfl, fun w => rfl, fun w => rfl⟩
    intro v hv
    refine ⟨?_, ?_⟩
    · rw [aCount_nil]
      simp
    · rw [aCount_nil, eCount_nil]
      by_cases h : v ∈ st.seen_asset
      · rw [if_pos h]
      · rw [if_neg h]
  | cons a l ih =>
    intro st
    rw [List.foldl_cons]
    obtain ⟨eS, heS, hcS, hsS, huS, hbS, hddS, hdcS⟩ := validate_asset_spec vd cr st a
    obtain ⟨eI, heI, hcI, hsI, huI, hbI, hddI, hdcI⟩ := ih (validate_asset vd cr st a)
    refine ⟨eS ++ eI, ?_, ?_, ?_, ?_, ?_, ?_, ?_⟩
    · rw [heI, heS, List.append_assoc]
    · rw [hcI, hcS]
    · rw [hsI, hsS]
    · intro v hv
      have hmem := (huS v hv).1
      have hcnt := (huS v hv).2
      have hmemI := (huI v hv).1
      have hcntI := (huI v hv).2
      constructor
      · rw [hmemI, hmem, aCount_cons]
        by_cases hav : a.asset_sp_id = v
        · rw [if_pos hav]
          constructor
          · intro h
            rcases h with (h | h) | h
            · exact Or.inl h
            · right; omega
            · right; omega
          · intro h
            cases h with
            | inl h => exact Or.inl (Or.inl h)
            | inr h => exact Or.inl (Or.inr hav)
        · rw [if_neg hav]
          constructor
          · intro h
            rcases h with (h | h) | h
            · exact Or.inl h
            · exact absurd h hav
            · right; omega
          · intro h
            cases h with
            | inl h => exact Or.inl (Or.inl h)
            | inr h => right; omega
      · rw [eCount_append, hcnt, hcntI, aCount_cons]
        by_cases hm : v ∈ st.seen_asset
        · rw [if_pos hm, if_pos (hmem.mpr (Or.inl hm))]
          by_cases hav : a.asset_sp_id = v
          · rw [if_pos ⟨hav, hm⟩, if_pos hav]
            omega
          · rw [if_neg (fun hh => hav hh.1), if_neg hav]
            omega
        · rw [if_neg hm]
          by_cases hav : a.asset_sp_id = v
          · rw [if_pos hav, if_neg (fun hh => hm hh.2),
              if_pos (hmem.mpr (Or.inr hav))]
            omega
          · rw [if_neg hav, if_neg (fun hh => hav hh.1),
              if_neg (fun hh => (hmem.mp hh).elim hm hav)]
            omega
    · rw [eCount_append, hbS, hbI]
    · intro w
      rw [eCount_append, hddS w, hddI w]
    · intro w
      rw [eCount_append, hdcS w, hdcI w]

end IGMigration

namespace IGMigration

theorem kCount_nil (v : String) : kCount v [] = 0 := rfl

theorem kCount_cons (v k : String) (l : List String) :
    kCount v (k :: l) = kCount v l + (if k = v then 1 else 0) := by
  unfold kCount
  rw [List.countP_cons]
  congr 1
  by_cases h : k = v
  · simp [h]
  · simp [h]

theorem cCount_append (v : String) (l1 l2 : List Contract) :
    cCount v (l1 ++ l2) = cCount v l1 + cCount v l2 :=
  List.countP_append _ _ _

theorem aCount_append (v : String) (l1 l2 : List Asset) :
    aCount v (l1 ++ l2) = aCount v l1 + aCount v l2 :=
  List.countP_append _ _ _

theorem allContracts_nil : allContracts [] = [] := rfl

theorem allAssets_nil : allAssets [] = [] := rfl

theorem allContracts_cons (s : Study) (data : List Study) :
    allContracts (s :: data) = s.contracts ++ allContracts data := by
  unfold allContracts
  rw [List.map_cons, List.flatten_cons]

theorem allAssets_cons (s : Study) (data : List Study) :
    allAssets (s :: data) = s.assets ++ allAssets data := by
  unfold allAssets
  rw [List.map_cons, List.flatten_cons]

/-- The top-of-study-loop CaseRef presence/uniqueness check. -/
def study_case_stage (st : VSt) (s : Study) : VSt :=
  let cr := s.caseref
  if cr = "" then
    { st with errors := st.errors ++ ["Study missing CaseRef"] }
  else if cr ∈ st.seen_case then
    { st with errors := st.errors ++ ["Duplicate CaseRef in merged data: " ++ cr] }
  else
    { st with seen_case := setAdd st.seen_case cr }

theorem validate_study_eq (vd : Bool) (st : VSt) (s : Study) :
    validate_study vd st s =
      s.assets.foldl (validate_asset vd s.caseref)
        (s.contracts.foldl (validate_contract vd s.caseref) (study_case_stage st s)) :=
  rfl

theorem study_case_stage_spec (st : VSt) (s : Study) :
    ∃ extra : List String,
      (study_case_stage st s).errors = st.errors ++ extra
      ∧ (study_case_stage st s).seen_asset = st.seen_asset
      ∧ (study_case_stage st s).seen_contract = st.seen_contract
      ∧ (∀ v : String, v ≠ "" →
          (v ∈ (study_case_stage st s).seen_case ↔
            (v ∈ st.seen_case ∨ s.caseref = v))
          ∧ eCount (msgDupCase v) extra =
              (if s.caseref = v ∧ v ∈ st.seen_case then 1 else 0))
      ∧ eCount (msgDupCase "") extra = 0
      ∧ (∀ w : String, eCount (msgDupContract w) extra = 0)
      ∧ (∀ w : String, eCount (msgDupAsset w) extra = 0) := by
  unfold study_case_stage
  by_cases hblank : s.caseref = ""
  · rw [if_pos hblank]
    refine ⟨["Study missing CaseRef"], rfl, rfl, rfl, ?_, ?_, ?_, ?_⟩
    · intro v hv
      constructor
      · constructor
        · exact Or.inl
        · intro h
          cases h with
          | inl h => exact h
          | inr h => exact absurd (hblank ▸ h) (Ne.symm hv)
      · rw [eCount_single_ne _ _ (studyish_ne_dupCase _ (by decide) v)]
        rw [if_neg]
        intro ⟨h1, _⟩
        exact hv (h1 ▸ hblank)
    · exact eCount_single_ne _ _ (studyish_ne_dupCase _ (by decide) "")
    · intro w
      exact eCount_single_ne _ _ (studyish_ne_dupContract _ (by decide) w)
    · intro w
      exact eCount_single_ne _ _ (studyish_ne_dupAsset _ (by decide) w)
  · rw [if_neg hblank]
    by_cases hseen : s.caseref ∈ st.seen_case
    · rw [if_pos hseen]
      refine ⟨[_], rfl, rfl, rfl, ?_, ?_, ?_, ?_⟩
      · intro v hv
        constructor
        · constructor
          · exact Or.inl
          · intro h
            cases h with
            | inl h => exact h
            | inr h => exact h ▸ hseen
        · show eCount (msgDupCase v) [msgDupCase s.caseref] = _
          by_cases hcv : s.caseref = v
          · rw [hcv, eCount_single_self, if_pos ⟨rfl, hcv ▸ hseen⟩]
          · rw [eCount_single_ne _ _ (fun he => hcv (dupCase_inj he))]
            rw [if_neg (fun hh => hcv hh.1)]
      · show eCount (msgDupCase "") [msgDupCase s.caseref] = 0
        exact eCount_single_ne _ _ (fun he => hblank (dupCase_inj he))
      · intro w
        exact eCount_single_ne _ _ (dupCase_ne_dupContract _ w)
      · intro w
        exact eCount_single_ne _ _ (dupCase_ne_dupAsset _ w)
    · rw [if_neg hseen]
      refine ⟨[], (List.append_nil _).symm, rfl, rfl, ?_, rfl, fun w => rfl, fun w => rfl⟩
      intro v hv
      constructor
      · show v ∈ setAdd st.seen_case s.caseref ↔ _
        rw [mem_setAdd]
        constructor
        · intro h
          cases h with
          | inl h => exact Or.inl h
          | inr h => exact Or.inr h.symm
        · intro h
          cases h with
          | inl h => exact Or.inl h
          | inr h => exact Or.inr h.symm
      · rw [eCount_nil, if_neg]
        intro ⟨h1, h2⟩
        exact hseen (h1 ▸ h2)

theorem validate_study_spec (vd : Bool) (st : VSt) (s : Study) :
    ∃ extra : List String,
      (validate_study vd st s).errors = st.errors ++ extra
      ∧ (∀ v : String, v ≠ "" →
          (v ∈ (validate_study vd st s).seen_contract ↔
            (v ∈ st.seen_contract ∨ 1 ≤ cCount v s.contracts))
          ∧ eCount (msgDupContract v) extra =
              (if v ∈ st.seen_contract then cCount v s.contracts
               else cCount v s.contracts - 1))
      ∧ (∀ v : String, v ≠ "" →
          (v ∈ (validate_study vd st s).seen_asset ↔
            (v ∈ st.seen_asset ∨ 1 ≤ aCount v s.assets))
          ∧ eCount (msgDupAsset v) extra =
              (if v ∈ st.seen_asset then aCount v s.assets
               else aCount v s.assets - 1))
      ∧ (∀ v : String, v ≠ "" →
          (v ∈ (validate_study vd st s).seen_case ↔
            (v ∈ st.seen_case ∨ s.caseref = v))
          ∧ eCount (msgDupCase v) extra =
              (if s.caseref = v ∧ v ∈ st.seen_case then 1 else 0))
      ∧ eCount (msgDupAsset "") extra = 0
      ∧ eCount (msgDupCase "") extra = 0 := by
  obtain ⟨e0, he0, ha0, hs0, hu0, hb0, hdd0, hda0⟩ := study_case_stage_spec st s
  obtain ⟨e1, he1, hc1, ha1, hu1, hda1, hdc1⟩ :=
    contracts_fold_spec vd s.caseref s.contracts (study_case_stage st s)
  obtain ⟨e2, he2, hc2, hs2, hu2, hb2, hdd2, hdc2⟩ :=
    assets_fold_spec vd s.caseref s.assets
      (s.contracts.foldl (validate_contract vd s.caseref) (study_case_stage st s))
  refine ⟨e0 ++ (e1 ++ e2), ?_, ?_, ?_, ?_, ?_, ?_⟩
  · rw [validate_study_eq, he2, he1, he0, List.append_assoc, List.append_assoc]
  · intro v hv
    constructor
    · rw [validate_study_eq, hs2, (hu1 v hv).1, hs0]
    · rw [eCount_append, eCount_append, hdd0 v, (hu1 v hv).2, hdd2 v, hs0]
      omega
  · intro v hv
    constructor
    · rw [validate_study_eq, (hu2 v hv).1, ha1, ha0]
    · rw [eCount_append, eCount_append, hda0 v, hda1 v, (hu2 v hv).2, ha1, ha0]
      omega
  · intro v hv
    constructor
    · rw [validate_study_eq, hc2, hc1]
      exact (hu0 v hv).1
    · rw [eCount_append, eCount_append, (hu0 v hv).2, hdc1 v, hdc2 v]
      omega
  · rw [eCount_append, eCount_append, hda0 "", hda1 "", hb2]
  · rw [eCount_append, eCount_append, hb0, hdc1 "", hdc2 ""]

theorem validate_fold_spec (vd : Bool) (data : List Study) :
    ∀ st : VSt, ∃ extra : List String,
      (data.foldl (validate_study vd) st).errors = st.errors ++ extra
      ∧ (∀ v : String, v ≠ "" →
          (v ∈ (data.foldl (validate_study vd) st).seen_contract ↔
            (v ∈ st.seen_contract ∨ 1 ≤ cCount v (allContracts data)))
          ∧ eCount (msgDupContract v) extra =
              (if v ∈ st.seen_contract then cCount v (allContracts data)
               else cCount v (allContracts data) - 1))
      ∧ (∀ v : String, v ≠ "" →
          (v ∈ (data.foldl (validate_study vd) st).seen_asset ↔
            (v ∈ st.seen_asset ∨ 1 ≤ aCount v (allAssets data)))
          ∧ eCount (msgDupAsset v) extra =
              (if v ∈ st.seen_asset then aCount v (allAssets data)
               else aCount v (allAssets data) - 1))
      ∧ (∀ v : String, v ≠ "" →
          (v ∈ (data.foldl (validate_study vd) st).seen_case ↔
            (v ∈ st.seen_case ∨ 1 ≤ kCount v (data.map Study.caseref)))
          ∧ eCount (msgDupCase v) extra =
              (if v ∈ st.seen_case then kCount v (data.map Study.caseref)
               else kCount v (data.map Study.caseref) - 1))
      ∧ eCount (msgDupAsset "") extra = 0
      ∧ eCount (msgDupCase "") extra = 0 := by
  induction data with
  | nil =>
    intro st
    refine ⟨[], (List.append_nil _).symm, ?_, ?_, ?_, rfl, rfl⟩
    · intro v hv
      refine ⟨by rw [allContracts_nil, cCount_nil]; simp, ?_⟩
      rw [allContracts_nil, cCount_nil, eCount_nil]
      by_cases h : v ∈ st.seen_contract
      · rw [if_pos h]
      · rw [if_neg h]
    · intro v hv
      refine ⟨by rw [allAssets_nil, aCount_nil]; simp, ?_⟩
      rw [allAssets_nil, aCount_nil, eCount_nil]
      by_cases h : v ∈ st.seen_asset
      · rw [if_pos h]
      · rw [if_neg h]
    · intro v hv
      refine ⟨by rw [List.map_nil, kCount_nil]; simp, ?_⟩
      rw [List.map_nil, kCount_nil, eCount_nil]
      by_cases h : v ∈ st.seen_case
      · rw [if_pos h]
      · rw [if_neg h]
  | cons s data ih =>
    intro st
    rw [List.foldl_cons]
    obtain ⟨eS, heS, hcS, haS, hkS, hbS, hkbS⟩ := validate_study_spec vd st s
    obtain ⟨eI, heI, hcI, haI, hkI, hbI, hkbI⟩ := ih (validate_study vd st s)
    refine ⟨eS ++ eI, ?_, ?_, ?_, ?_, ?_, ?_⟩
    · rw [heI, heS, List.append_assoc]
    · intro v hv
      have hmem := (hcS v hv).1
      have hcnt := (hcS v hv).2
      have hmemI := (hcI v hv).1
      have hcntI := (hcI v hv).2
      constructor
      · rw [hmemI, hmem, allContracts_cons, cCount_append]
        constructor
        · intro h
          rcases h with (h | h) | h
          · exact Or.inl h
          · right; omega
          · right; omega
        · intro h
          cases h with
          | inl h => exact Or.inl (Or.inl h)
          | inr h =>
            by_cases hs : 1 ≤ cCount v s.contracts
            · exact Or.inl (Or.inr hs)
            · right; omega
      · rw [eCount_append, hcnt, hcntI, allContracts_cons, cCount_append]
        by_cases hm : v ∈ st.seen_contract
        · rw [if_pos hm, if_pos (hmem.mpr (Or.inl hm)), if_pos hm]
        · rw [if_neg hm]
          by_cases hs : 1 ≤ cCount v s.contracts
          · rw [if_pos (hmem.mpr (Or.inr hs)), if_neg hm]
            omega
          · rw [if_neg (fun hh => (hmem.mp hh).elim hm hs), if_neg hm]
            omega
    · intro v hv
      have hmem := (haS v hv).1
      have hcnt := (haS v hv).2
      have hmemI := (haI v hv).1
      have hcntI := (haI v hv).2
      constructor
      · rw [hmemI, hmem, allAssets_cons, aCount_append]
        constructor
        · intro h
          rcases h with (h | h) | h
          · exact Or.inl h
          · right; omega
          · right; omega
        · intro h
          cases h with
          | inl h => exact Or.inl (Or.inl h)
          | inr h =>
            by_cases hs : 1 ≤ aCount v s.assets
            · exact Or.inl (Or.inr hs)
            · right; omega
      · rw [eCount_append, hcnt, hcntI, allAssets_cons, aCount_append]
        by_cases hm : v ∈ st.seen_asset
        · rw [if_pos hm, if_pos (hmem.mpr (Or.inl hm)), if_pos hm]
        · rw [if_neg hm]
          by_cases hs : 1 ≤ aCount v s.assets
          · rw [if_pos (hmem.mpr (Or.inr hs)), if_neg hm]
            omega
          · rw [if_neg (fun hh => (hmem.mp hh).elim hm hs), if_neg hm]
            omega
    · intro v hv
      have hmem := (hkS v hv).1
      have hcnt := (hkS v hv).2
      have hmemI := (hkI v hv).1
      have hcntI := (hkI v hv).2
      constructor
      · rw [hmemI, hmem, List.map_cons, kCount_cons]
        by_cases hcv : s.caseref = v
        · rw [if_pos hcv]
          constructor
          · intro h
            rcases h with (h | h) | h
            · exact Or.inl h
            · right; omega
            · right; omega
          · intro h
            cases h with
            | inl h => exact Or.inl (Or.inl h)
            | inr h => exact Or.inl (Or.inr hcv)
        · rw [if_neg hcv]
          constructor
          · intro h
            rcases h with (h | h) | h
            · exact Or.inl h
            · exact absurd h hcv
            · right; omega
          · intro h
            cases h with
            | inl h => exact Or.inl (Or.inl h)
            | inr h => right; omega
      · rw [eCount_append, hcnt, hcntI, List.map_cons, kCount_cons]
        by_cases hm : v ∈ st.seen_case
        · rw [if_pos hm, if_pos (hmem.mpr (Or.inl hm))]
          by_cases hcv : s.caseref = v
          · rw [if_pos ⟨hcv, hm⟩, if_pos hcv]
            omega
          · rw [if_neg (fun hh => hcv hh.1), if_neg hcv]
            omega
        · rw [if_neg hm]
          by_cases hcv : s.caseref = v
          · rw [if_pos hcv, if_neg (fun hh => hm hh.2),
              if_pos (hmem.mpr (Or.inr hcv))]
            omega
          · rw [if_neg hcv, if_neg (fun hh => hcv hh.1),
              if_neg (fun hh => (hmem.mp hh).elim hm hcv)]
            omega
    · rw [eCount_append, hbS, hbI]
    · rw [eCount_append, hkbS, hkbI]

/-- C6: the Validator is a total function returning an issue list (it cannot
raise on data-quality problems), and its uniqueness checks behave as
claimed: merged data containing exactly two contracts with the same
non-blank `contract_sp_id` yields exactly one duplicate issue naming that
identity; exactly two assets sharing a non-blank `asset_sp_id` likewise
yield exactly one duplicate issue; and blank asset ids are exempt — the
blank-id duplicate message never appears at all. -/
theorem c6_validator_uniqueness (data : List Study) (vd : Bool) (v : String) (hv : v ≠ "") :
    (cCount v (allContracts data) = 2 →
      eCount (msgDupContract v) (validate data vd) = 1)
    ∧ (aCount v (allAssets data) = 2 →
      eCount (msgDupAsset v) (validate data vd) = 1)
    ∧ eCount (msgDupAsset "") (validate data vd) = 0 := by
  obtain ⟨extra, he, hc, ha, _, hb, _⟩ := validate_fold_spec vd data ⟨[], [], [], []⟩
  have hval : validate data vd = extra := by
    unfold validate
    rw [he]
    exact List.nil_append _
  refine ⟨?_, ?_, ?_⟩
  · intro h2
    rw [hval, (hc v hv).2, if_neg (by intro h; cases h), h2]
  · intro h2
    rw [hval, (ha v hv).2, if_neg (by intro h; cases h), h2]
  · rw [hval, hb]

/-- C6 witness: a pipeline-produced merged structure with exactly two
contracts sharing id `"x"` produces exactly one duplicate issue. -/
theorem c6_witness :
    ("x" ≠ "" ∧ cCount "x" (allContracts (build_import_json
        ((read_studies [[("CaseRef", "S1")]]).toOption.getD []) []
        ((read_study_contracts [[("CaseRef", "S1"), ("ID", "x")],
          [("CaseRef", "S1"), ("ID", "x")]]).toOption.getD []))) = 2)
    ∧ eCount (msgDupContract "x") (validate (build_import_json
        ((read_studies [[("CaseRef", "S1")]]).toOption.getD []) []
        ((read_study_contracts [[("CaseRef", "S1"), ("ID", "x")],
          [("CaseRef", "S1"), ("ID", "x")]]).toOption.getD [])) true) = 1 :=
  ⟨⟨by decide, by decide⟩,
    (c6_validator_uniqueness _ true "x" (by decide)).1 (by decide)⟩

end IGMigration

namespace IGMigration

/-! ## C10: duplicate CaseRefs — last row wins, no error, validator silent -/

theorem dget_nil (x : String) : dget ([] : Dict α) x = none := rfl

theorem dget_cons_pos (p : String × α) (t : Dict α) (x : String)
    (h : (p.1 == x) = true) : dget (p :: t) x = some p.2 := by
  unfold dget
  simp only [List.find?, h, Option.map_some']

theorem dget_cons_neg (p : String × α) (t : Dict α) (x : String)
    (h : (p.1 == x) = false) : dget (p :: t) x = dget t x := by
  unfold dget
  simp only [List.find?, h]

theorem dget_dinsert (d : Dict α) (k : String) (v : α) (x : String) :
    dget (dinsert d k v) x = if k = x then some v else dget d x := by
  induction d with
  | nil =>
    rw [dinsert]
    by_cases hkx : k = x
    · rw [if_pos hkx, dget_cons_pos _ _ _ (by rw [beq_iff_eq]; exact hkx)]
    · rw [if_neg hkx, dget_cons_neg _ _ _ (by rw [beq_eq_false_iff_ne]; exact hkx), dget_nil]
  | cons p t ih =>
    rw [dinsert]
    by_cases hpk : (p.1 == k) = true
    · rw [if_pos hpk]
      have hp : p.1 = k := beq_iff_eq.mp hpk
      by_cases hkx : k = x
      · rw [if_pos hkx, dget_cons_pos _ _ _ (by rw [beq_iff_eq]; exact hkx)]
      · rw [if_neg hkx, dget_cons_neg _ _ _ (by rw [beq_eq_false_iff_ne]; exact hkx),
          dget_cons_neg _ _ _ (by rw [beq_eq_false_iff_ne, hp]; exact hkx)]
    · rw [if_neg hpk]
      by_cases hpx : (p.1 == x) = true
      · have hkx : ¬ k = x := by
          intro hkx
          apply hpk
          rw [beq_iff_eq] at hpx ⊢
          rw [hpx, hkx]
        rw [if_neg hkx, dget_cons_pos _ _ _ hpx, dget_cons_pos _ _ _ hpx]
      · rw [dget_cons_neg _ _ _ (Bool.not_eq_true _ ▸ hpx),
          dget_cons_neg _ _ _ (Bool.not_eq_true _ ▸ hpx)]
        exact ih

theorem read_studies_go_ok (rows : List Row) :
    ∀ (i : Nat) (acc : Dict Study), (∀ r ∈ rows, ¬ blankCase r) →
      ∃ m, read_studies_go i rows acc = .ok m := by
  induction rows with
  | nil =>
    intro i acc _
    exact ⟨acc, rfl⟩
  | cons r t ih =>
    intro i acc h
    simp only [read_studies_go]
    rw [if_neg (show ¬ pystrip ((rowGet r "CaseRef").getD "") = "" from
      h r (List.mem_cons_self r t))]
    exact ih (i + 1) _ (fun r2 hr2 => h r2 (List.mem_cons_of_mem r hr2))

theorem read_studies_go_last (rows : List Row) :
    ∀ (i : Nat) (acc m : Dict Study), read_studies_go i rows acc = .ok m →
      ∀ k : String,
        dget m k = (((rows.filter
            (fun r => pystrip ((rowGet r "CaseRef").getD "") == k)).getLast?).map
          (fun r => mkStudy r k)).or (dget acc k) := by
  induction rows with
  | nil =>
    intro i acc m h k
    simp only [read_studies_go] at h
    cases h
    rw [List.filter_nil]
    rfl
  | cons r t ih =>
    intro i acc m h k
    simp only [read_studies_go] at h
    by_cases hc : pystrip ((rowGet r "CaseRef").getD "") = ""
    · rw [if_pos hc] at h
      cases h
    · rw [if_neg hc] at h
      have hIH := ih (i + 1) _ m h k
      rw [dget_dinsert] at hIH
      rw [List.filter_cons]
      by_cases hPr : (pystrip ((rowGet r "CaseRef").getD "") == k) = true
      · rw [if_pos hPr]
        have hk : pystrip ((rowGet r "CaseRef").getD "") = k := beq_iff_eq.mp hPr
        cases hft : t.filter (fun r => pystrip ((rowGet r "CaseRef").getD "") == k) with
        | nil =>
          rw [hft] at hIH
          rw [hIH]
          simp only [List.getLast?_nil, Option.map_none', Option.none_or,
            List.getLast?_singleton, Option.map_some', if_pos hk]
          rw [hk, Option.or_some]
        | cons q qs =>
          rw [hft] at hIH
          have hz : (q :: qs).getLast? = some ((q :: qs).getLast (by simp)) :=
            List.getLast?_eq_getLast _ _
          rw [hIH, List.getLast?_cons_cons, hz]
          rfl
      · rw [if_neg hPr]
        have hk : ¬ pystrip ((rowGet r "CaseRef").getD "") = k := by
          intro hh
          exact hPr (beq_iff_eq.mpr hh)
        rw [hIH, if_neg hk]

theorem dkeys_dinsert_nodup (d : Dict α) (k : String) (v : α)
    (h : (dkeys d).Nodup) : (dkeys (dinsert d k v)).Nodup := by
  induction d with
  | nil =>
    rw [dinsert]
    simp [dkeys]
  | cons p t ih =>
    rw [dinsert]
    unfold dkeys at h
    rw [List.map_cons] at h
    by_cases hpk : (p.1 == k) = true
    · rw [if_pos hpk]
      unfold dkeys
      rw [List.map_cons]
      apply List.Pairwise.cons
      · intro b hb hkb
        have hp : p.1 = k := beq_iff_eq.mp hpk
        exact (List.rel_of_pairwise_cons h hb) (hp ▸ hkb)
      · exact h.tail
    · rw [if_neg hpk]
      unfold dkeys
      rw [List.map_cons]
      apply List.Pairwise.cons
      · intro b hb hpb
        rcases mem_dkeys_dinsert t k v b hb with h2 | h2
        · exact (List.rel_of_pairwise_cons h h2) hpb
        · apply hpk
          rw [beq_iff_eq, hpb, h2]
      · exact ih h.tail

theorem read_studies_go_nodup (rows : List Row) :
    ∀ (i : Nat) (acc m : Dict Study), read_studies_go i rows acc = .ok m →
      (dkeys acc).Nodup → (dkeys m).Nodup := by
  induction rows with
  | nil =>
    intro i acc m h hacc
    simp only [read_studies_go] at h
    cases h
    exact hacc
  | cons r t ih =>
    intro i acc m h hacc
    simp only [read_studies_go] at h
    by_cases hc : pystrip ((rowGet r "CaseRef").getD "") = ""
    · rw [if_pos hc] at h
      cases h
    · rw [if_neg hc] at h
      exact ih _ _ _ h (dkeys_dinsert_nodup acc _ _ hacc)

theorem kCount_eq_count (v : String) (l : List String) : kCount v l = l.count v := rfl

theorem build_caserefs_nodup (studies : Dict Study) (aby : Dict (List Asset))
    (cby : Dict (List Contract)) (hkeys : (dkeys studies).Nodup)
    (hinv : ∀ p ∈ studies, p.2.caseref = p.1) :
    ((build_import_json studies aby cby).map Study.caseref).Nodup := by
  unfold build_import_json
  have hperm := (pySort_perm studyLe (studies.map (fun p =>
    { p.2 with
        contracts := dgetD cby p.1 []
        assets := pySort assetLe (dgetD aby p.1 []) }))).map Study.caseref
  rw [List.Perm.nodup_iff hperm]
  rw [List.map_map]
  have : studies.map (Study.caseref ∘ fun p =>
      { p.2 with
          contracts := dgetD cby p.1 []
          assets := pySort assetLe (dgetD aby p.1 []) }) = studies.map (fun p => p.1) := by
    apply List.map_congr_left
    intro p hp
    exact hinv p hp
  rw [this]
  exact hkeys

theorem validate_no_dupCase (data : List Study) (vd : Bool)
    (h : (data.map Study.caseref).Nodup) :
    ∀ cr : String, msgDupCase cr ∉ validate data vd := by
  intro cr hmem
  have hpos : 0 < eCount (msgDupCase cr) (validate data vd) := by
    unfold eCount
    rw [List.countP_pos_iff]
    exact ⟨msgDupCase cr, hmem, by rw [beq_iff_eq]⟩
  obtain ⟨extra, he, _, _, hk, _, hkb⟩ := validate_fold_spec vd data ⟨[], [], [], []⟩
  have hval : validate data vd = extra := by
    unfold validate
    rw [he]
    exact List.nil_append _
  by_cases hcr : cr = ""
  · rw [hval, hcr, hkb] at hpos
    exact Nat.lt_irrefl 0 hpos
  · have hcount := (hk cr hcr).2
    rw [if_neg (by intro hh; cases hh)] at hcount
    have hle : kCount cr (data.map Study.caseref) ≤ 1 := by
      rw [kCount_eq_count]
      exact List.nodup_iff_count_le_one.mp h cr
    rw [hval, hcount] at hpos
    omega

/-- C10: duplicated non-blank `CaseRef`s in the studies source are accepted
silently — reading succeeds whenever every row's `CaseRef` is non-blank (the
duplicate check at `gptstudies.py` lines 103–104 is commented out), and
`studies[case_ref] = {...}` makes the last matching row's record the one
kept (lookup returns the last row carrying the key); hence the merged
output contains each `CaseRef` exactly once (the caseref list is
duplicate-free), so the Validator's duplicate-CaseRef message can never
appear on pipeline-produced data. -/
theorem c10_duplicate_caseref_last_wins (rows : List Row) :
    ((∀ r ∈ rows, ¬ blankCase r) → ∃ m, read_studies rows = .ok m)
    ∧ (∀ m, read_studies rows = .ok m → ∀ k : String,
        dget m k = ((rows.filter
            (fun r => pystrip ((rowGet r "CaseRef").getD "") == k)).getLast?).map
          (fun r => mkStudy r k))
    ∧ (∀ (m : Dict Study) (aby : Dict (List Asset)) (cby : Dict (List Contract)),
        read_studies rows = .ok m →
        ((build_import_json m aby cby).map Study.caseref).Nodup)
    ∧ (∀ (m : Dict Study) (aby : Dict (List Asset)) (cby : Dict (List Contract))
        (vd : Bool) (cr : String),
        read_studies rows = .ok m →
        msgDupCase cr ∉ validate (build_import_json m aby cby) vd) := by
  refine ⟨?_, ?_, ?_, ?_⟩
  · intro h
    exact read_studies_go_ok rows 2 [] h
  · intro m h k
    have := read_studies_go_last rows 2 [] m h k
    rw [dget_nil] at this
    rw [this]
    exact Option.or_none
  · intro m aby cby h
    exact build_caserefs_nodup m aby cby
      (read_studies_go_nodup rows 2 [] m h List.nodup_nil)
      (read_studies_go_invariant rows 2 [] m h (by intro p hp; cases hp))
  · intro m aby cby vd cr h
    exact validate_no_dupCase _ vd
      (build_caserefs_nodup m aby cby
        (read_studies_go_nodup rows 2 [] m h List.nodup_nil)
        (read_studies_go_invariant rows 2 [] m h (by intro p hp; cases hp))) cr

/-- C10 witness: two rows with the same `CaseRef` — reading succeeds and the
lookup holds the second row's record. -/
theorem c10_witness :
    (∀ r ∈ [[("CaseRef", "S1"), ("Title", "A")], [("CaseRef", "S1"), ("Title", "B")]],
      ¬ blankCase r)
    ∧ (read_studies [[("CaseRef", "S1"), ("Title", "A")], [("CaseRef", "S1"), ("Title", "B")]] =
        .ok [("S1", mkStudy [("CaseRef", "S1"), ("Title", "B")] "S1")])
    ∧ dget [("S1", mkStudy [("CaseRef", "S1"), ("Title", "B")] "S1")] "S1" =
        (((([[("CaseRef", "S1"), ("Title", "A")], [("CaseRef", "S1"), ("Title", "B")]] :
            List Row).filter
          (fun r => pystrip ((rowGet r "CaseRef").getD "") == "S1")).getLast?).map
          (fun r => mkStudy r "S1")) :=
  ⟨by decide, by decide,
    (c10_duplicate_caseref_last_wins _).2.1 _ (by decide) "S1"⟩

end IGMigration
